/-
Verification of the Macro_pulse normalization-and-forecasting pipeline
(src/processed_data.py and src/forecast.py) via a shallow embedding.

Timestamps are modelled as integers counting hours (a calendar day is 24
units), so that sub-day times and the daily-frequency grid of
`asfreq("D")` are both representable.  Prices and other numeric cells are
rationals.  A CSV cell is either null (NaN/NaT), a number, a parsed
timestamp, or a non-numeric string; `pd.to_numeric(errors="coerce")`
sends strings to null, `pd.to_datetime(errors="coerce")` sends
non-timestamp cells to null.  Fallible pandas operations (reindexing a
duplicate axis) are modelled with `Except`.
-/
import Mathlib

namespace MacroPulse

/-- One CSV cell: null (NaN/NaT), a numeric value, a timestamp (hours
since the epoch, after UTC conversion), or a non-numeric string. -/
inductive Cell where
  | cnull : Cell
  | cnum (q : ℚ) : Cell
  | ctime (t : Int) : Cell
  | cstr (s : String) : Cell
deriving DecidableEq

instance instDecEqExcept [DecidableEq e] [DecidableEq a] : DecidableEq (Except e a) := fun x y =>
  match x, y with
  | Except.ok u, Except.ok v =>
    if h : u = v then Decidable.isTrue (by rw [h])
    else Decidable.isFalse (fun hh => by cases hh; exact h rfl)
  | Except.ok _, Except.error _ => Decidable.isFalse (fun hh => by cases hh)
  | Except.error _, Except.ok _ => Decidable.isFalse (fun hh => by cases hh)
  | Except.error u, Except.error v =>
    if h : u = v then Decidable.isTrue (by rw [h])
    else Decidable.isFalse (fun hh => by cases hh; exact h rfl)

/-- A pandas DataFrame as read from CSV: named columns and rows of cells. -/
structure Table where
  cols : List String
  rows : List (List Cell)
deriving DecidableEq

/-- Rectangularity: every row has one cell per column (guaranteed by
`pd.read_csv`). -/
def Table.WF (t : Table) : Prop := ∀ r ∈ t.rows, r.length = t.cols.length

/-- Cell access with the pandas null as default. -/
def getCell (r : List Cell) (i : ℕ) : Cell := r.getD i Cell.cnull

/-- The timestamp carried by a cell, if any. -/
def toDateOpt : Cell → Option Int
  | Cell.ctime t => some t
  | _ => none

/-- `pd.to_numeric(errors="coerce")` on one cell: numbers survive,
everything else becomes null. -/
def toNumOpt : Cell → Option ℚ
  | Cell.cnum q => some q
  | _ => none

/-- pandas nullness (`NaN`/`NaT`): only the null cell is null; a
non-numeric string is NOT null. -/
def isNullCell : Cell → Bool
  | Cell.cnull => true
  | _ => false

/-- `pd.to_datetime(errors="coerce")` on one cell: parseable timestamps
survive, everything else becomes `NaT`. -/
def convDate (c : Cell) : Cell :=
  match toDateOpt c with
  | some t => Cell.ctime t
  | none => Cell.cnull

/-- View a cell as an optional cell (null ↦ none), for fill operations. -/
def cellOpt (c : Cell) : Option Cell := if isNullCell c then none else some c

/-- Back from optional cell to cell. -/
def optCell (o : Option Cell) : Cell := o.getD Cell.cnull

/-- An optional rational as a cell. -/
def numCell : Option ℚ → Cell
  | some q => Cell.cnum q
  | none => Cell.cnull

/-- Forward fill, carrying the last seen non-null value. -/
def ffillAux (acc : Option α) : List (Option α) → List (Option α)
  | [] => []
  | none :: rest => acc :: ffillAux acc rest
  | some a :: rest => some a :: ffillAux (some a) rest

/-- `Series.ffill`. -/
def ffill (l : List (Option α)) : List (Option α) := ffillAux none l

/-- `Series.bfill`. -/
def bfill (l : List (Option α)) : List (Option α) := (ffill l.reverse).reverse

/-- `Series.pct_change(lag) * 100`: null for the first `lag` positions or
when either operand is null, else `(p[t] - p[t-lag]) / p[t-lag] * 100`. -/
def pct (lag : ℕ) (p : List (Option ℚ)) : List (Option ℚ) :=
  (List.range p.length).map (fun t =>
    if t < lag then none
    else match p.getD t none, p.getD (t - lag) none with
      | some c, some pr => some ((c - pr) / pr * 100)
      | _, _ => none)

/-- `pd.date_range(lo, hi, freq="D")`: `lo, lo+24, ...`, not exceeding `hi`. -/
def gridList (lo hi : Int) : List Int :=
  (List.range (((hi - lo) / 24).toNat + 1)).map (fun i => lo + 24 * Int.ofNat i)

/-- The daily grid spanned by a (sorted) list of surviving dates; empty
input gives an empty grid. -/
def alignGrid (ds : List Int) : List Int :=
  match ds with
  | [] => []
  | d :: _ => gridList d (ds.getLastD d)

/-- ASCII lowercasing of one character (column names and candidate sets
are ASCII, so this matches Python's `str.lower` on the relevant inputs). -/
def lowerChar (c : Char) : Char :=
  if 'A' ≤ c ∧ c ≤ 'Z' then Char.ofNat (c.toNat + 32) else c

/-- `str.lower`. -/
def lowerStr (s : String) : String := String.mk (s.toList.map lowerChar)

/-- `os.path.basename`: the part after the last path separator. -/
def basename (p : String) : String :=
  String.mk (p.toList.foldl (fun acc c => if c = '/' then [] else acc ++ [c]) [])

/-- The root part of `os.path.splitext`: cut at the last dot that has a
non-dot character somewhere before it. -/
def splitextRoot (s : String) : String :=
  let cs := s.toList
  let idxs := (List.range cs.length).filter (fun i =>
    (cs.getD i ' ' == '.') && ((List.range i).any (fun j => cs.getD j ' ' != '.')))
  match idxs.getLast? with
  | some i => String.mk (cs.take i)
  | none => s

/-- `infer_symbol_from_filename` from src/processed_data.py. -/
def infer_symbol_from_filename (p : String) : String :=
  splitextRoot (basename p)

/-- Case-insensitive date-column candidates `{date, datetime}`. -/
def dateCand (c : String) : Bool :=
  (lowerStr c == "date") || (lowerStr c == "datetime")

/-- Case-insensitive price-column candidates `{price, close, adj close}`. -/
def priceCand (c : String) : Bool :=
  (lowerStr c == "price") || (lowerStr c == "close") || (lowerStr c == "adj close")

/-- `df.rename(columns={first_candidate: target})` guarded by
`if candidates and target not in df.columns` (renaming maps every
occurrence of the matched name, as pandas rename does). -/
def renameFirstIfAbsent (cols : List String) (cand : String → Bool) (target : String) :
    List String :=
  match cols.filter cand with
  | [] => cols
  | c :: _ =>
    if cols.contains target then cols
    else cols.map (fun x => if x = c then target else x)

/-- `validate_and_fix_columns` from src/processed_data.py: resolve the
date column, then the price column, then add a `symbol` column inferred
from the file name when absent. -/
def validate_and_fix_columns (df : Table) (fp : String) : Table :=
  let cols1 := renameFirstIfAbsent df.cols dateCand "date"
  let cols2 := renameFirstIfAbsent cols1 priceCand "price"
  if cols2.contains "symbol" then ⟨cols2, df.rows⟩
  else ⟨cols2 ++ ["symbol"],
        df.rows.map (fun r => r ++ [Cell.cstr (infer_symbol_from_filename fp)])⟩

/-- `{"date", "symbol", "price"} - set(df.columns)`. -/
def missingCols (t : Table) : List String :=
  (["date", "symbol", "price"]).filter (fun c => ¬ t.cols.contains c)

/-- Index of the `date` column. -/
def dIdx (t : Table) : ℕ := t.cols.indexOf "date"

/-- Index of the `price` column. -/
def pIdx (t : Table) : ℕ := t.cols.indexOf "price"

/-- The date of a (converted) row, reading the date column. -/
def rowDate (idxD : ℕ) (r : List Cell) : Int := (toDateOpt (getCell r idxD)).getD 0

/-- Lines 49–57 of src/processed_data.py (shared verbatim by
src/forecast.py lines 25–28): convert the date column, drop rows with a
null date or null price, and sort ascending by date.  `sort_values` uses
an unstable sort, but all uses below either have distinct keys or fail
at reindexing, so any sort agrees. -/
def survSorted (df : Table) : List (List Cell) :=
  let idxD := dIdx df
  let conv := df.rows.map (fun r => r.set idxD (convDate (getCell r idxD)))
  let kept := conv.filter (fun r =>
    !(isNullCell (getCell r idxD)) && !(isNullCell (getCell r (pIdx df))))
  kept.insertionSort (fun a b => rowDate idxD a ≤ rowDate idxD b)

/-- The surviving dates, ascending. -/
def survDates (df : Table) : List Int := (survSorted df).map (rowDate (dIdx df))

/-- Replace column `i` of each row by the given values. -/
def setColumn (rows : List (List Cell)) (i : ℕ) (vals : List Cell) :
    List (List Cell) :=
  List.zipWith (fun r v => r.set i v) rows vals

/-- `df[name] = vals`: overwrite in place when the column exists, else
append it on the right. -/
def addOrSetCol (cols : List String) (rows : List (List Cell)) (name : String)
    (vals : List Cell) : List String × List (List Cell) :=
  if cols.contains name then (cols, setColumn rows (cols.indexOf name) vals)
  else (cols ++ [name], List.zipWith (fun r v => r ++ [v]) rows vals)

/-- Payload columns after `set_index("date")`. -/
def pcolsOf (df : Table) : List String := df.cols.eraseIdx (dIdx df)

/-- Payload rows after `set_index("date").asfreq("D")`: one row per grid
day, taken from the surviving row with that exact date or all-null. -/
def prowsOf (df : Table) : List (List Cell) :=
  (alignGrid (survDates df)).map (fun t =>
    match (survSorted df).find? (fun r => rowDate (dIdx df) r = t) with
    | some r => r.eraseIdx (dIdx df)
    | none => List.replicate (pcolsOf df).length Cell.cnull)

/-- The aligned price column before gap filling: one entry per grid day,
numerically coerced. -/
def prePrices (df : Table) : List (Option ℚ) :=
  (prowsOf df).map (fun r => toNumOpt (getCell r ((pcolsOf df).indexOf "price")))

/-- The aligned, numerically-coerced, gap-filled price column
(`pd.to_numeric(df["price"], errors="coerce").ffill().bfill()`). -/
def pricesOf (df : Table) : List (Option ℚ) := bfill (ffill (prePrices df))

/-- The gap-filled symbol column. -/
def symsOf (df : Table) : List Cell :=
  (bfill (ffill ((prowsOf df).map (fun r => cellOpt (getCell r ((pcolsOf df).indexOf "symbol")))))).map optCell

/-- The payload rows after writing back the filled symbol and price
columns (`df["symbol"] = ...; df["price"] = ...`). -/
def prows1Of (df : Table) : List (List Cell) :=
  setColumn (setColumn (prowsOf df) ((pcolsOf df).indexOf "symbol") (symsOf df))
    ((pcolsOf df).indexOf "price") ((pricesOf df).map numCell)

/-- `df["Daily_Change_%"] = df["price"].pct_change(1) * 100`. -/
def step1Of (df : Table) : List String × List (List Cell) :=
  addOrSetCol (pcolsOf df) (prows1Of df) "Daily_Change_%" ((pct 1 (pricesOf df)).map numCell)

/-- `df["Weekly_Change_7d_%"] = df["price"].pct_change(7) * 100`. -/
def step2Of (df : Table) : List String × List (List Cell) :=
  addOrSetCol (step1Of df).1 (step1Of df).2 "Weekly_Change_7d_%" ((pct 7 (pricesOf df)).map numCell)

/-- `df["Monthly_Change_30d_%"] = df["price"].pct_change(30) * 100`. -/
def step3Of (df : Table) : List String × List (List Cell) :=
  addOrSetCol (step2Of df).1 (step2Of df).2 "Monthly_Change_30d_%" ((pct 30 (pricesOf df)).map numCell)

/-- Lines 66–76 of src/processed_data.py, after the guards: align to the
daily grid, fill symbol and price, append the three change columns and
reset the index (date first). -/
def buildProcessed (df : Table) : Table :=
  ⟨"date" :: (step3Of df).1,
   List.zipWith (fun t r => Cell.ctime t :: r) (alignGrid (survDates df)) (step3Of df).2⟩

/-- `process_file` from src/processed_data.py.  `none` input means
`pd.read_csv` raised (caught, returns None).  `Except.error` marks the
one uncaught exception: `asfreq("D")` raising `ValueError` when the
surviving rows carry duplicate dates. -/
def process_file (fp : String) (inp : Option Table) : Except Unit (Option Table) :=
  match inp with
  | none => Except.ok none
  | some df0 =>
    if df0.rows = [] ∨ df0.cols = [] then Except.ok none
    else
      let df := validate_and_fix_columns df0 fp
      if missingCols df ≠ [] then Except.ok none
      else if survSorted df = [] then Except.ok none
      else if (survDates df).Nodup then Except.ok (some (buildProcessed df))
      else Except.error ()

/-- `main` from src/processed_data.py: a batch of (path, read result)
pairs processed in order; an uncaught exception aborts the rest
(`save_processed` itself catches its own write errors and is pure here). -/
def main : List (String × Option Table) → Except Unit (List (Option Table))
  | [] => Except.ok []
  | x :: xs =>
    match process_file x.1 x.2 with
    | Except.error e => Except.error e
    | Except.ok r =>
      match main xs with
      | Except.error e => Except.error e
      | Except.ok rs => Except.ok (r :: rs)

/-- Column values by name (first occurrence, as pandas column lookup). -/
def getColVals (t : Table) (name : String) : List Cell :=
  t.rows.map (fun r => getCell r (t.cols.indexOf name))

/-- The date column of a processed output, as timestamps. -/
def dateColumn (t : Table) : List Int :=
  (getColVals t "date").map (fun c => (toDateOpt c).getD 0)

/-- A named column read back as optional rationals. -/
def colQ (t : Table) (name : String) : List (Option ℚ) :=
  (getColVals t name).map toNumOpt

/-- The change formula of the spec, `(price[t] - price[t-lag]) / price[t-lag]
* 100`, lifted to nullable prices (null when either operand is null). -/
def pctFormula (p : List (Option ℚ)) (t lag : ℕ) : Option ℚ :=
  (p.getD t none).bind (fun c =>
    (p.getD (t - lag) none).bind (fun pr => some ((c - pr) / pr * 100)))

/-- `FORECAST_STEPS` from src/forecast.py. -/
def FORECAST_STEPS : ℕ := 30

/-- Modelled from the spec: the two-sided 95% normal quantile used by the
external statsmodels `conf_int` (§4.4: "a two-sided interval at the
model's default confidence level (95%)").  Only its nonnegativity
matters to the claims. -/
def zCrit : ℚ := 196 / 100

/-- The pre-fill aligned price series of `prepare_series`: one entry per
grid day (rows at off-grid timestamps are lost), numerically coerced. -/
def preAligned (df : Table) : List (Option ℚ) :=
  (alignGrid (survDates df)).map (fun t =>
    match (survSorted df).find? (fun r => rowDate (dIdx df) r = t) with
    | some r => toNumOpt (getCell r (pIdx df))
    | none => none)

/-- The aligned, coerced, gap-filled price series built by
`prepare_series` (src/forecast.py lines 28–30). -/
def alignedPrices (df : Table) : List (Option ℚ) := bfill (ffill (preAligned df))

/-- The number of non-null price observations after alignment and fill:
`len(s["price"].dropna())` at src/forecast.py line 32. -/
def alignedCount (df : Table) : ℕ := (alignedPrices df).countP Option.isSome

/-- `prepare_series` from src/forecast.py: `none` when a required column
is missing or fewer than 20 non-null observations remain; `Except.error`
when `asfreq("D")` raises on duplicate surviving dates. -/
def prepare_series (df : Table) : Except Unit (Option (List (Int × Option ℚ))) :=
  if ¬ ("date" ∈ df.cols ∧ "price" ∈ df.cols) then Except.ok none
  else if (survDates df).Nodup then
    if alignedCount df < 20 then Except.ok none
    else Except.ok (some ((alignGrid (survDates df)).zip (alignedPrices df)))
  else Except.error ()

/-- One row of a forecast output file. -/
structure FRow where
  date : Int
  symbol : String
  forecast : ℚ
  ci_lower : ℚ
  ci_upper : ℚ
deriving DecidableEq

/-- The last historical date of the aligned series. -/
def lastAligned (df : Table) : Int := (alignGrid (survDates df)).getLastD 0

/-- Modelled from the spec: the table built from
`fit.get_forecast(steps=FORECAST_STEPS)` (src/forecast.py lines 50–60).
The fitted model itself is external (statsmodels ARIMA), so its per-step
mean and standard error are abstract parameters; the forecast index
continues the daily frequency from the day after the last historical
date, and `conf_int` is the symmetric interval mean ± z·se (§4.4). -/
def fcRows (sym : String) (lastD : Int) (fmean fse : ℕ → ℚ) : List FRow :=
  (List.range FORECAST_STEPS).map (fun i =>
    ⟨lastD + 24 * (Int.ofNat i + 1), sym, fmean i,
     fmean i - zCrit * fse i, fmean i + zCrit * fse i⟩)

/-- `forecast_one_symbol` from src/forecast.py, parametric in the fitted
model's per-step mean and standard error (the statsmodels fit is
external).  `ok none` is the skip path; success also writes the rows to
`forecast_{symbol}.csv`. -/
def forecast_one_symbol (sym : String) (df : Table) (fmean fse : ℕ → ℚ) :
    Except Unit (Option (List FRow)) :=
  match prepare_series df with
  | Except.error e => Except.error e
  | Except.ok none => Except.ok none
  | Except.ok (some s) =>
    let lastD := (s.map Prod.fst).getLastD 0
    Except.ok (some (fcRows sym lastD fmean fse))

/-! ### Concrete example tables -/

/-- Three consecutive days with aliased column names. -/
def tblThree : Table :=
  ⟨["Date", "Close"],
   [[Cell.ctime 0, Cell.cnum 1], [Cell.ctime 24, Cell.cnum 2], [Cell.ctime 48, Cell.cnum 3]]⟩

/-- Two rows sharing the same date. -/
def tblDup : Table :=
  ⟨["date", "price"], [[Cell.ctime 0, Cell.cnum 1], [Cell.ctime 0, Cell.cnum 2]]⟩

/-- Two rows at hour 10 of day 0 and hour 8 of day 1 (sub-day timestamps). -/
def tblHours : Table :=
  ⟨["date", "symbol", "price"],
   [[Cell.ctime 10, Cell.cstr "X", Cell.cnum 1], [Cell.ctime 32, Cell.cstr "X", Cell.cnum 2]]⟩

/-- One row whose price is the non-null, non-numeric string "abc". -/
def tblStr : Table := ⟨["date", "price"], [[Cell.ctime 0, Cell.cstr "abc"]]⟩

/-- A numeric price at an off-grid timestamp between two string prices. -/
def tblStrMix : Table :=
  ⟨["date", "price"],
   [[Cell.ctime 0, Cell.cstr "abc"], [Cell.ctime 10, Cell.cnum 5], [Cell.ctime 24, Cell.cstr "x"]]⟩

/-- Ten usable rows, one every three days: a 28-day calendar span. -/
def tblTen : Table :=
  ⟨["date", "price"], (List.range 10).map (fun i => [Cell.ctime (72 * Int.ofNat i), Cell.cnum 1])⟩

/-- A raw file with an extra `Volume` column. -/
def tblExtra : Table :=
  ⟨["Date", "Close", "Volume"],
   [[Cell.ctime 0, Cell.cnum 1, Cell.cnum 5], [Cell.ctime 24, Cell.cnum 2, Cell.cnum 6]]⟩

/-- Twenty consecutive daily observations. -/
def tblTwenty : Table :=
  ⟨["date", "price"], (List.range 20).map (fun i => [Cell.ctime (24 * Int.ofNat i), Cell.cnum 1])⟩

/-- A table already in canonical column order. -/
def tblCanon : Table :=
  ⟨["date", "symbol", "price"], [[Cell.ctime 0, Cell.cstr "A", Cell.cnum 1]]⟩

/-- A table that already carries the canonical six columns, change
columns included (the shape collect_data.py itself writes to data/raw). -/
def tblSix : Table :=
  ⟨["date", "symbol", "price", "Daily_Change_%", "Weekly_Change_7d_%", "Monthly_Change_30d_%"],
   [[Cell.ctime 0, Cell.cstr "A", Cell.cnum 1, Cell.cnull, Cell.cnull, Cell.cnull]]⟩

/-- Two rows whose prices are both null. -/
def tblNull : Table :=
  ⟨["date", "price"], [[Cell.ctime 0, Cell.cnull], [Cell.ctime 24, Cell.cnull]]⟩

/-- Ten consecutive daily observations. -/
def tblTenDays : Table :=
  ⟨["date", "price"], (List.range 10).map (fun i => [Cell.ctime (24 * Int.ofNat i), Cell.cnum 1])⟩

end MacroPulse

namespace MacroPulse

/-! ### Counterexamples for the corrected claims -/

/-- C1: the claim that no exception from processing a single file
propagates out of the batch is false: a file whose surviving rows carry
duplicate dates raises at `asfreq("D")` and aborts the whole batch, even
though the other file in the batch is processable on its own. -/
theorem C1_counterexample :
    main [("a.csv", some tblDup), ("b.csv", some tblThree)] = Except.error () ∧
    (process_file "b.csv" (some tblThree)).map (Option.map Table.cols) =
      Except.ok (some ["date", "price", "symbol", "Daily_Change_%",
        "Weekly_Change_7d_%", "Monthly_Change_30d_%"]) := by
  constructor <;> decide

/-- C2: an input with exactly 10 usable (non-null date and price) rows is
NOT skipped when the rows span 28 calendar days: gap-filling makes 28
non-null observations, the ≥20 guard passes, and 30 forecast rows are
produced. -/
theorem C2_counterexample :
    (survSorted tblTen).length = 10 ∧
    (forecast_one_symbol "X" tblTen (fun _ => 0) (fun _ => 0)).map (Option.map List.length) =
      Except.ok (some 30) ∧
    forecast_one_symbol "X" tblTen (fun _ => 0) (fun _ => 0) ≠ Except.ok none := by
  refine ⟨by decide, by decide, by decide⟩

/-- C3: with sub-day timestamps (hour 10 of day 0 and hour 8 of day 1),
the surviving dates are 10 and 32 but the output date set is just {10}:
the maximum surviving date is not in the output, so the output dates are
not the inclusive calendar range from minimum to maximum. -/
theorem C3_counterexample :
    survDates (validate_and_fix_columns tblHours "f.csv") = [10, 32] ∧
    (process_file "f.csv" (some tblHours)).map (Option.map dateColumn) =
      Except.ok (some [10]) ∧
    ¬ (32 : Int) ∈ [(10 : Int)] := by
  refine ⟨by decide, by decide, by decide⟩

/-- C5: a series whose only price is the non-null string "abc" is not
rejected, yet its processed output has a null price; and even a series
containing the non-null numeric price 5 (at an off-grid timestamp) can
yield an output whose prices are all null. -/
theorem C5_counterexample :
    (process_file "a.csv" (some tblStr)).map (Option.map (fun t => getColVals t "price")) =
      Except.ok (some [Cell.cnull]) ∧
    isNullCell (Cell.cstr "abc") = false ∧
    (process_file "a.csv" (some tblStrMix)).map (Option.map (fun t => getColVals t "price")) =
      Except.ok (some [Cell.cnull, Cell.cnull]) ∧
    toNumOpt (Cell.cnum 5) = some 5 := by
  refine ⟨by decide, by decide, by decide, by decide⟩

/-- C9: a raw file with columns `Date, Close, Volume` produces the
columns `date, price, Volume, symbol, …changes…`: the extra `Volume`
column is retained and `price` precedes `symbol`, so the output columns
are not exactly the canonical six in the canonical order. -/
theorem C9_counterexample :
    (process_file "AAPL.csv" (some tblExtra)).map (Option.map Table.cols) =
      Except.ok (some ["date", "price", "Volume", "symbol", "Daily_Change_%",
        "Weekly_Change_7d_%", "Monthly_Change_30d_%"]) ∧
    ["date", "price", "Volume", "symbol", "Daily_Change_%",
        "Weekly_Change_7d_%", "Monthly_Change_30d_%"] ≠
      ["date", "symbol", "price", "Daily_Change_%",
        "Weekly_Change_7d_%", "Monthly_Change_30d_%"] := by
  refine ⟨by decide, by decide⟩

/-! ### Fill lemmas -/

lemma ffillAux_length (acc : Option α) (l : List (Option α)) :
    (ffillAux acc l).length = l.length := by
  induction l generalizing acc with
  | nil => rfl
  | cons x xs ih => cases x <;> simp [ffillAux, ih]

lemma ffill_length (l : List (Option α)) : (ffill l).length = l.length :=
  ffillAux_length none l

lemma bfill_length (l : List (Option α)) : (bfill l).length = l.length := by
  simp [bfill, ffill_length]

lemma ffillAux_all_some (acc : Option α) (h : acc.isSome) (l : List (Option α)) :
    ∀ y ∈ ffillAux acc l, y.isSome := by
  induction l generalizing acc with
  | nil => intro y hy; cases hy
  | cons x xs ih =>
    cases x with
    | none =>
      intro y hy
      rcases List.mem_cons.1 hy with rfl | hy
      · exact h
      · exact ih acc h y hy
    | some a =>
      intro y hy
      rcases List.mem_cons.1 hy with rfl | hy
      · rfl
      · exact ih (some a) rfl y hy

lemma ffill_mem_none (m : List (Option α)) (h : (none : Option α) ∈ ffill m) :
    ∃ t, m = none :: t := by
  cases m with
  | nil => cases h
  | cons x xs =>
    cases x with
    | none => exact ⟨xs, rfl⟩
    | some a =>
      exfalso
      rcases List.mem_cons.1 h with h1 | h1
      · cases h1
      · simpa using ffillAux_all_some (some a) rfl xs none h1

lemma ffillAux_concat_none (l : List (Option α)) :
    ∀ (acc : Option α) (s : List (Option α)), ffillAux acc l = s ++ [none] →
      acc = none ∧ ∀ x ∈ l, x = none := by
  induction l with
  | nil =>
    intro acc s h
    exact absurd h (by simp [ffillAux])
  | cons x xs ih =>
    intro acc s h
    cases hxs : xs with
    | nil =>
      subst hxs
      cases x with
      | none =>
        simp only [ffillAux] at h
        have hs : s = [] := by
          have := congrArg List.length h
          simp [ffillAux] at this
          exact this
        subst hs
        have hacc : acc = none := by
          have h2 : ([acc] : List (Option α)) = [none] := by simpa [ffillAux] using h
          exact (List.cons.injEq _ _ _ _ ▸ h2).1
        exact ⟨hacc, by intro z hz; simpa using hz⟩
      | some a =>
        exfalso
        simp only [ffillAux] at h
        have hs : s = [] := by
          have := congrArg List.length h
          simp [ffillAux] at this
          exact this
        subst hs
        have h2 : ([some a] : List (Option α)) = [none] := by simpa [ffillAux] using h
        exact Option.noConfusion (List.cons.injEq _ _ _ _ ▸ h2).1
    | cons z zs =>
      subst hxs
      cases x with
      | none =>
        simp only [ffillAux] at h
        obtain ⟨b, bs, rfl⟩ : ∃ b bs, s = b :: bs := by
          cases s with
          | nil =>
            exfalso
            have := congrArg List.length h
            simp [ffillAux_length] at this
          | cons b bs => exact ⟨b, bs, rfl⟩
        rw [List.cons_append] at h
        have htail : ffillAux acc (z :: zs) = bs ++ [none] := (List.cons.injEq _ _ _ _ ▸ h).2
        have hb : acc = b := (List.cons.injEq _ _ _ _ ▸ h).1
        obtain ⟨hacc, hall⟩ := ih acc bs htail
        refine ⟨hacc, ?_⟩
        intro w hw
        rcases List.mem_cons.1 hw with rfl | hw
        · rfl
        · exact hall w hw
      | some a =>
        exfalso
        simp only [ffillAux] at h
        obtain ⟨b, bs, rfl⟩ : ∃ b bs, s = b :: bs := by
          cases s with
          | nil =>
            exfalso
            have := congrArg List.length h
            simp [ffillAux_length] at this
          | cons b bs => exact ⟨b, bs, rfl⟩
        rw [List.cons_append] at h
        have htail : ffillAux (some a) (z :: zs) = bs ++ [none] := (List.cons.injEq _ _ _ _ ▸ h).2
        exact Option.noConfusion (ih (some a) bs htail).1

lemma bfill_ffill_all_some (l : List (Option α)) (h : ∃ x ∈ l, x.isSome) :
    ∀ y ∈ bfill (ffill l), y.isSome := by
  intro y hy
  cases y with
  | some b => rfl
  | none =>
    exfalso
    rw [bfill, List.mem_reverse] at hy
    obtain ⟨t, ht⟩ := ffill_mem_none _ hy
    have hrev : ffill l = t.reverse ++ [none] := by
      have := congrArg List.reverse ht
      simpa using this
    obtain ⟨-, hall⟩ := ffillAux_concat_none l none t.reverse hrev
    obtain ⟨x, hx, hs⟩ := h
    obtain ⟨a, rfl⟩ := Option.isSome_iff_exists.1 hs
    exact Option.noConfusion (hall (some a) hx)

/-! ### Grid lemmas -/

lemma gridList_eq_concat (lo hi : Int) :
    gridList lo hi = (List.range (((hi - lo) / 24).toNat)).map (fun i => lo + 24 * Int.ofNat i)
      ++ [lo + 24 * Int.ofNat (((hi - lo) / 24).toNat)] := by
  rw [gridList, List.range_succ, List.map_append]
  rfl

lemma getLastD_cons_eq {β : Type} (b : β) (ts : List β) (x y : β) :
    (b :: ts).getLastD x = (b :: ts).getLastD y := by
  induction ts generalizing b with
  | nil => rfl
  | cons c cs ih => simpa [List.getLastD_cons] using ih c

lemma getLastD_concat {β : Type} (l : List β) (a x : β) :
    (l ++ [a]).getLastD x = a := by
  induction l generalizing x with
  | nil => rfl
  | cons b bs ih =>
    rw [List.cons_append, List.getLastD_cons]
    exact ih b

lemma gridList_headD (lo hi : Int) : (gridList lo hi).headD 0 = lo := by
  rw [gridList, List.range_succ_eq_map]
  simp

lemma gridList_getLastD (lo hi : Int) :
    (gridList lo hi).getLastD 0 = lo + 24 * Int.ofNat (((hi - lo) / 24).toNat) := by
  rw [gridList_eq_concat, getLastD_concat]

lemma gridList_last_le (lo hi : Int) (h : lo ≤ hi) :
    (gridList lo hi).getLastD 0 ≤ hi ∧ hi - 24 < (gridList lo hi).getLastD 0 := by
  rw [gridList_getLastD]
  have hm : (0 : Int) ≤ hi - lo := by omega
  have hq : (0 : Int) ≤ (hi - lo) / 24 := Int.ediv_nonneg hm (by norm_num)
  rw [Int.ofNat_eq_coe, Int.toNat_of_nonneg hq]
  have h1 : 24 * ((hi - lo) / 24) + (hi - lo) % 24 = hi - lo := Int.ediv_add_emod _ _
  have h2 : (0 : Int) ≤ (hi - lo) % 24 := Int.emod_nonneg _ (by norm_num)
  have h3 : (hi - lo) % 24 < 24 := Int.emod_lt_of_pos _ (by norm_num)
  constructor <;> omega

lemma gridList_chain' (lo hi : Int) :
    (gridList lo hi).Chain' (fun a b => b = a + 24) := by
  rw [gridList, List.chain'_map, List.chain'_range_succ]
  intro m _
  simp only [Int.ofNat_eq_coe]
  push_cast
  ring

lemma gridList_pairwise (lo hi : Int) :
    (gridList lo hi).Pairwise (fun a b => a < b) := by
  rw [gridList]
  refine List.Pairwise.map _ (fun a b hab => ?_) (List.pairwise_lt_range _)
  simp only [Int.ofNat_eq_coe]
  omega

lemma gridList_mem_iff (lo hi : Int) (x : Int) :
    x ∈ gridList lo hi ↔
      ∃ i : ℕ, i ≤ ((hi - lo) / 24).toNat ∧ x = lo + 24 * Int.ofNat i := by
  rw [gridList]
  simp only [List.mem_map, List.mem_range, Nat.lt_succ_iff]
  constructor
  · rintro ⟨i, hi1, rfl⟩
    exact ⟨i, hi1, rfl⟩
  · rintro ⟨i, hi1, rfl⟩
    exact ⟨i, hi1, rfl⟩

lemma gridList_mem_iff_of_dvd (lo hi : Int) (h : lo ≤ hi) (hd : (24 : Int) ∣ hi - lo)
    (x : Int) :
    x ∈ gridList lo hi ↔ lo ≤ x ∧ x ≤ hi ∧ (24 : Int) ∣ x - lo := by
  have hm : (0 : Int) ≤ hi - lo := by omega
  have hq : (0 : Int) ≤ (hi - lo) / 24 := Int.ediv_nonneg hm (by norm_num)
  have hmul : 24 * ((hi - lo) / 24) = hi - lo := Int.mul_ediv_cancel' hd
  rw [gridList_mem_iff]
  simp only [Int.ofNat_eq_coe]
  constructor
  · rintro ⟨i, hi1, rfl⟩
    refine ⟨by omega, by omega, ⟨(i : Int), by ring⟩⟩
  · rintro ⟨h1, h2, k, hk⟩
    have hk0 : (0 : Int) ≤ k := by omega
    exact ⟨k.toNat, by omega, by omega⟩

/-! ### Sortedness of the surviving dates -/

lemma survDates_sorted (df : Table) : (survDates df).Sorted (· ≤ ·) := by
  rw [survDates, survSorted]
  haveI ht : IsTotal (List Cell) (fun a b => rowDate (dIdx df) a ≤ rowDate (dIdx df) b) :=
    ⟨fun a b => le_total _ _⟩
  haveI htr : IsTrans (List Cell) (fun a b => rowDate (dIdx df) a ≤ rowDate (dIdx df) b) :=
    ⟨fun a b c hab hbc => le_trans hab hbc⟩
  have hs := List.sorted_insertionSort
    (fun a b => rowDate (dIdx df) a ≤ rowDate (dIdx df) b)
    ((df.rows.map (fun r => r.set (dIdx df) (convDate (getCell r (dIdx df))))).filter
      (fun r => !(isNullCell (getCell r (dIdx df))) && !(isNullCell (getCell r (pIdx df)))))
  exact hs.map _ (fun a b hab => hab)

lemma headD_le_of_sorted (l : List Int) (hs : l.Sorted (· ≤ ·)) (d : Int) (hd : d ∈ l) :
    l.headD 0 ≤ d := by
  cases l with
  | nil => cases hd
  | cons a t =>
    rcases List.mem_cons.1 hd with rfl | hd
    · simp
    · simpa using (List.pairwise_cons.1 hs).1 d hd

lemma le_getLastD_of_sorted (l : List Int) (hs : l.Sorted (· ≤ ·)) :
    ∀ d ∈ l, d ≤ l.getLastD 0 := by
  induction l with
  | nil => intro d hd; cases hd
  | cons a t ih =>
    intro d hd
    cases t with
    | nil =>
      rcases List.mem_cons.1 hd with rfl | hd
      · simp
      · cases hd
    | cons b ts =>
      have hlast : (a :: b :: ts).getLastD 0 = (b :: ts).getLastD 0 := by
        rw [List.getLastD_cons]
        exact getLastD_cons_eq b ts a 0
      rw [hlast]
      rcases List.mem_cons.1 hd with rfl | hd
      · calc d ≤ b := (List.pairwise_cons.1 hs).1 b (by simp)
          _ ≤ (b :: ts).getLastD 0 := ih (List.pairwise_cons.1 hs).2 b (by simp)
      · exact ih (List.pairwise_cons.1 hs).2 d hd

/-! ### Cell and column tracking lemmas -/

lemma getCell_set_self (r : List Cell) (i : ℕ) (v : Cell) (h : i < r.length) :
    getCell (r.set i v) i = v := by
  simp [getCell, List.getD_eq_getElem?_getD, List.getElem?_set_eq_of_lt v h]

lemma getCell_set_ne (r : List Cell) (i j : ℕ) (v : Cell) (h : i ≠ j) :
    getCell (r.set i v) j = getCell r j := by
  simp [getCell, List.getD_eq_getElem?_getD, List.getElem?_set_ne h]

lemma getCell_append_left (r s : List Cell) (j : ℕ) (h : j < r.length) :
    getCell (r ++ s) j = getCell r j := by
  simp [getCell, List.getD_eq_getElem?_getD, List.getElem?_append_left h]

lemma getCell_append_self (r : List Cell) (v : Cell) :
    getCell (r ++ [v]) r.length = v := by
  simp [getCell, List.getD_eq_getElem?_getD, List.getElem?_concat_length]

lemma setColumn_map_getCell_self (i : ℕ) :
    ∀ (rows : List (List Cell)) (vals : List Cell), vals.length = rows.length →
      (∀ r ∈ rows, i < r.length) →
      (setColumn rows i vals).map (fun r => getCell r i) = vals := by
  intro rows
  induction rows with
  | nil =>
    intro vals hlen _
    rw [List.length_nil, List.length_eq_zero] at hlen
    subst hlen
    rfl
  | cons r rs ih =>
    intro vals hlen hrow
    cases vals with
    | nil => simp at hlen
    | cons v vs =>
      simp only [setColumn, List.zipWith_cons_cons, List.map_cons]
      rw [getCell_set_self r i v (hrow r (by simp))]
      congr 1
      exact ih vs (by simpa using hlen) (fun x hx => hrow x (by simp [hx]))

lemma setColumn_map_getCell_ne (i j : ℕ) (hij : i ≠ j) :
    ∀ (rows : List (List Cell)) (vals : List Cell), vals.length = rows.length →
      (setColumn rows i vals).map (fun r => getCell r j) = rows.map (fun r => getCell r j) := by
  intro rows
  induction rows with
  | nil => intro vals _; rfl
  | cons r rs ih =>
    intro vals hlen
    cases vals with
    | nil => simp at hlen
    | cons v vs =>
      simp only [setColumn, List.zipWith_cons_cons, List.map_cons]
      rw [getCell_set_ne r i j v hij]
      congr 1
      exact ih vs (by simpa using hlen)

lemma setColumn_row_length :
    ∀ (rows : List (List Cell)) (vals : List Cell) (i : ℕ) (L : ℕ),
      (∀ r ∈ rows, r.length = L) → ∀ r ∈ setColumn rows i vals, r.length = L := by
  intro rows
  induction rows with
  | nil => intro vals i L _ r hr; cases hr
  | cons a as ih =>
    intro vals i L hall r hr
    cases vals with
    | nil => cases hr
    | cons v vs =>
      simp only [setColumn, List.zipWith_cons_cons] at hr
      rcases List.mem_cons.1 hr with rfl | hr
      · simpa using hall a (by simp)
      · exact ih vs i L (fun x hx => hall x (by simp [hx])) r hr

lemma setColumn_length (rows : List (List Cell)) (vals : List Cell) (i : ℕ)
    (hlen : vals.length = rows.length) : (setColumn rows i vals).length = rows.length := by
  simp [setColumn, hlen]

lemma appendCol_map_getCell_old (j L : ℕ) (hj : j < L) :
    ∀ (rows : List (List Cell)) (vals : List Cell), (∀ r ∈ rows, r.length = L) →
      (List.zipWith (fun r v => r ++ [v]) rows vals).map (fun r => getCell r j) =
        (rows.take vals.length).map (fun r => getCell r j) := by
  intro rows
  induction rows with
  | nil => intro vals _; simp
  | cons r rs ih =>
    intro vals hall
    cases vals with
    | nil => rfl
    | cons v vs =>
      simp only [List.zipWith_cons_cons, List.map_cons, List.take_succ_cons]
      rw [getCell_append_left r [v] j (by rw [hall r (by simp)]; exact hj)]
      congr 1
      exact ih vs (fun x hx => hall x (by simp [hx]))

lemma appendCol_map_getCell_new (L : ℕ) :
    ∀ (rows : List (List Cell)) (vals : List Cell), vals.length = rows.length →
      (∀ r ∈ rows, r.length = L) →
      (List.zipWith (fun r v => r ++ [v]) rows vals).map (fun r => getCell r L) = vals := by
  intro rows
  induction rows with
  | nil =>
    intro vals hlen _
    rw [List.length_nil, List.length_eq_zero] at hlen
    subst hlen
    rfl
  | cons r rs ih =>
    intro vals hlen hall
    cases vals with
    | nil => simp at hlen
    | cons v vs =>
      simp only [List.zipWith_cons_cons, List.map_cons]
      have hhead : getCell (r ++ [v]) L = v := by
        rw [← hall r (by simp)]
        exact getCell_append_self r v
      rw [hhead]
      congr 1
      exact ih vs (by simpa using hlen) (fun x hx => hall x (by simp [hx]))

lemma appendCol_row_length (L : ℕ) :
    ∀ (rows : List (List Cell)) (vals : List Cell), (∀ r ∈ rows, r.length = L) →
      ∀ r ∈ List.zipWith (fun r v => r ++ [v]) rows vals, r.length = L + 1 := by
  intro rows
  induction rows with
  | nil => intro vals _ r hr; cases hr
  | cons a as ih =>
    intro vals hall r hr
    cases vals with
    | nil => cases hr
    | cons v vs =>
      simp only [List.zipWith_cons_cons] at hr
      rcases List.mem_cons.1 hr with rfl | hr
      · simp [hall a (by simp)]
      · exact ih vs (fun x hx => hall x (by simp [hx])) r hr

lemma zipWith_cons_map_getCell_zero (grid : List Int) :
    ∀ (rows : List (List Cell)), rows.length = grid.length →
      (List.zipWith (fun t r => Cell.ctime t :: r) grid rows).map (fun r => getCell r 0) =
        grid.map Cell.ctime := by
  induction grid with
  | nil => intro rows _; rfl
  | cons t ts ih =>
    intro rows hlen
    cases rows with
    | nil => simp at hlen
    | cons r rs =>
      simp only [List.zipWith_cons_cons, List.map_cons]
      exact congrArg _ (ih rs (by simpa using hlen))

lemma zipWith_cons_map_getCell_succ (j : ℕ) (grid : List Int) :
    ∀ (rows : List (List Cell)), rows.length = grid.length →
      (List.zipWith (fun t r => Cell.ctime t :: r) grid rows).map (fun r => getCell r (j + 1)) =
        rows.map (fun r => getCell r j) := by
  induction grid with
  | nil =>
    intro rows hlen
    have h0 : rows = [] := List.length_eq_zero.1 (by simpa using hlen)
    subst h0
    rfl
  | cons t ts ih =>
    intro rows hlen
    cases rows with
    | nil => simp at hlen
    | cons r rs =>
      simp only [List.zipWith_cons_cons, List.map_cons]
      refine congrArg _ (ih rs (by simpa using hlen))

/-! ### indexOf helpers -/

lemma indexOf_ne_of_ne (cols : List String) (a b : String) (ha : a ∈ cols) (hb : b ∈ cols)
    (hab : a ≠ b) : cols.indexOf a ≠ cols.indexOf b := by
  intro h
  have h1 := List.indexOf_get (List.indexOf_lt_length.2 ha)
  have h2 := List.indexOf_get (List.indexOf_lt_length.2 hb)
  apply hab
  calc a = cols.get ⟨cols.indexOf a, List.indexOf_lt_length.2 ha⟩ := h1.symm
    _ = cols.get ⟨cols.indexOf b, List.indexOf_lt_length.2 hb⟩ := by
        exact congrArg cols.get (Fin.ext h)
    _ = b := h2

lemma mem_eraseIdx_of_get_ne (l : List String) (i : ℕ) (hi : i < l.length) (a : String)
    (ha : a ∈ l) (hne : l.get ⟨i, hi⟩ ≠ a) : a ∈ l.eraseIdx i := by
  obtain ⟨j, hj, hja⟩ := List.mem_iff_getElem.1 ha
  rw [List.mem_eraseIdx_iff_getElem]
  refine ⟨j, hj, ?_, hja⟩
  intro hji
  subst hji
  exact hne (by simpa [List.get_eq_getElem] using hja)

/-! ### addOrSetCol lemmas -/

lemma contains_iff_mem (l : List String) (a : String) : l.contains a = true ↔ a ∈ l := by
  simp [List.contains_iff_exists_mem_beq, beq_iff_eq, eq_comm]

lemma addOrSetCol_snd_length (cols : List String) (rows : List (List Cell)) (name : String)
    (vals : List Cell) (hlen : vals.length = rows.length) :
    (addOrSetCol cols rows name vals).2.length = rows.length := by
  rw [addOrSetCol]
  split_ifs <;> simp [setColumn, hlen]

lemma addOrSetCol_mem_fst (cols : List String) (rows : List (List Cell)) (name : String)
    (vals : List Cell) (c : String) (hc : c ∈ cols) :
    c ∈ (addOrSetCol cols rows name vals).1 := by
  rw [addOrSetCol]
  split_ifs
  · exact hc
  · exact List.mem_append_left _ hc

lemma addOrSetCol_row_length (cols : List String) (rows : List (List Cell)) (name : String)
    (vals : List Cell) (hrows : ∀ r ∈ rows, r.length = cols.length) :
    ∀ r ∈ (addOrSetCol cols rows name vals).2, r.length = (addOrSetCol cols rows name vals).1.length := by
  rw [addOrSetCol]
  split_ifs with hc
  · exact fun r hr => setColumn_row_length rows vals _ cols.length hrows r hr
  · intro r hr
    simp only [List.length_append, List.length_cons, List.length_nil]
    exact appendCol_row_length cols.length rows vals hrows r hr

lemma addOrSetCol_track (cols : List String) (rows : List (List Cell)) (name : String)
    (vals : List Cell) (other : String) (hother : other ∈ cols) (hne : other ≠ name)
    (hlen : vals.length = rows.length) (hrows : ∀ r ∈ rows, r.length = cols.length) :
    (addOrSetCol cols rows name vals).2.map
        (fun r => getCell r ((addOrSetCol cols rows name vals).1.indexOf other)) =
      rows.map (fun r => getCell r (cols.indexOf other)) := by
  rw [addOrSetCol]
  split_ifs with hc
  · have hcn : name ∈ cols := (contains_iff_mem cols name).1 hc
    exact setColumn_map_getCell_ne _ _
      (indexOf_ne_of_ne cols name other hcn hother (fun h => hne h.symm)) rows vals hlen
  · simp only
    rw [List.indexOf_append_of_mem hother]
    rw [appendCol_map_getCell_old (cols.indexOf other) cols.length
      (List.indexOf_lt_length.2 hother) rows vals hrows]
    rw [hlen, List.take_length]

lemma addOrSetCol_self (cols : List String) (rows : List (List Cell)) (name : String)
    (vals : List Cell) (hlen : vals.length = rows.length)
    (hrows : ∀ r ∈ rows, r.length = cols.length) :
    (addOrSetCol cols rows name vals).2.map
        (fun r => getCell r ((addOrSetCol cols rows name vals).1.indexOf name)) = vals := by
  rw [addOrSetCol]
  split_ifs with hc
  · have hcn : name ∈ cols := (contains_iff_mem cols name).1 hc
    refine setColumn_map_getCell_self _ rows vals hlen ?_
    intro r hr
    rw [hrows r hr]
    exact List.indexOf_lt_length.2 hcn
  · have hnm : name ∉ cols := fun hm => hc ((contains_iff_mem cols name).2 hm)
    have hidx : (cols ++ [name]).indexOf name = cols.length := by
      rw [List.indexOf_append_of_not_mem hnm]
      simp [List.indexOf_cons_self]
    simp only
    rw [hidx]
    exact appendCol_map_getCell_new cols.length rows vals hlen hrows

/-! ### Pipeline length and well-formedness lemmas -/

lemma pct_length (lag : ℕ) (p : List (Option ℚ)) : (pct lag p).length = p.length := by
  simp [pct]

lemma renameFirstIfAbsent_length (cols : List String) (cand : String → Bool) (t : String) :
    (renameFirstIfAbsent cols cand t).length = cols.length := by
  rw [renameFirstIfAbsent]
  cases cols.filter cand with
  | nil => rfl
  | cons c cs =>
    split_ifs
    · rfl
    · simp

lemma validate_WF (df : Table) (fp : String) (hwf : df.WF) :
    (validate_and_fix_columns df fp).WF := by
  rw [validate_and_fix_columns]
  split_ifs with hc
  · intro r hr
    simp only at hr ⊢
    rw [hwf r hr, renameFirstIfAbsent_length, renameFirstIfAbsent_length]
  · intro r hr
    simp only at hr ⊢
    obtain ⟨r0, hr0, rfl⟩ := List.mem_map.1 hr
    simp [hwf r0 hr0, renameFirstIfAbsent_length]

lemma missingCols_eq_nil_iff (t : Table) :
    missingCols t = [] ↔ "date" ∈ t.cols ∧ "symbol" ∈ t.cols ∧ "price" ∈ t.cols := by
  simp [missingCols, List.filter_eq_nil_iff, contains_iff_mem]

lemma survSorted_row_length (df : Table) (hwf : df.WF) :
    ∀ r ∈ survSorted df, r.length = df.cols.length := by
  intro r hr
  simp only [survSorted, List.mem_insertionSort] at hr
  have hr2 := List.mem_of_mem_filter hr
  obtain ⟨r0, hr0, rfl⟩ := List.mem_map.1 hr2
  simpa using hwf r0 hr0

lemma prowsOf_length (df : Table) :
    (prowsOf df).length = (alignGrid (survDates df)).length := by
  simp [prowsOf]

lemma prowsOf_row_length (df : Table) (hwf : df.WF) (hdate : "date" ∈ df.cols) :
    ∀ r ∈ prowsOf df, r.length = (pcolsOf df).length := by
  intro r hr
  simp only [prowsOf] at hr
  obtain ⟨t, ht, hres⟩ := List.mem_map.1 hr
  have hd : dIdx df < df.cols.length := List.indexOf_lt_length.2 hdate
  have hpl : (pcolsOf df).length = df.cols.length - 1 := by
    simp [pcolsOf, List.length_eraseIdx, hd]
  cases hfind : (survSorted df).find? (fun r => decide (rowDate (dIdx df) r = t)) with
  | none =>
    rw [hfind] at hres
    rw [← hres]
    simp
  | some r0 =>
    rw [hfind] at hres
    have hm := List.mem_of_find?_eq_some hfind
    have hlen := survSorted_row_length df hwf r0 hm
    rw [← hres, List.length_eraseIdx, hlen, hpl]
    simp [hd, hlen]

lemma prePrices_length (df : Table) :
    (prePrices df).length = (alignGrid (survDates df)).length := by
  simp [prePrices, prowsOf]

lemma pricesOf_length (df : Table) :
    (pricesOf df).length = (alignGrid (survDates df)).length := by
  rw [pricesOf, bfill_length, ffill_length, prePrices_length]

lemma symsOf_length (df : Table) :
    (symsOf df).length = (alignGrid (survDates df)).length := by
  rw [symsOf, List.length_map, bfill_length, ffill_length, List.length_map, prowsOf_length]

lemma alignedPrices_length (df : Table) :
    (alignedPrices df).length = (alignGrid (survDates df)).length := by
  rw [alignedPrices, bfill_length, ffill_length, preAligned, List.length_map]

/-! ### process_file inversion -/

lemma process_file_ok_some {fp : String} {df out : Table}
    (h : process_file fp (some df) = Except.ok (some out)) :
    out = buildProcessed (validate_and_fix_columns df fp) ∧
    missingCols (validate_and_fix_columns df fp) = [] ∧
    survSorted (validate_and_fix_columns df fp) ≠ [] ∧
    (survDates (validate_and_fix_columns df fp)).Nodup := by
  simp only [process_file] at h
  split_ifs at h with h1 h2 h3 h4
  all_goals try cases h
  exact ⟨rfl, not_ne_iff.1 h2, h3, h4⟩

/-! ### Stage invariants for buildProcessed -/

lemma prows1Of_length (df : Table) :
    (prows1Of df).length = (alignGrid (survDates df)).length := by
  have h1 : (setColumn (prowsOf df) ((pcolsOf df).indexOf "symbol") (symsOf df)).length
      = (prowsOf df).length :=
    setColumn_length _ _ _ (by rw [symsOf_length, prowsOf_length])
  rw [prows1Of,
    setColumn_length _ _ _ (by rw [List.length_map, pricesOf_length, h1, prowsOf_length]),
    h1, prowsOf_length]

lemma prows1Of_row_length (df : Table) (hwf : df.WF) (hdate : "date" ∈ df.cols) :
    ∀ r ∈ prows1Of df, r.length = (pcolsOf df).length := by
  rw [prows1Of]
  exact setColumn_row_length _ _ _ _
    (setColumn_row_length _ _ _ _ (prowsOf_row_length df hwf hdate))

lemma prows1Of_price (df : Table) (hwf : df.WF) (hdate : "date" ∈ df.cols)
    (hps : "price" ∈ pcolsOf df) :
    (prows1Of df).map (fun r => getCell r ((pcolsOf df).indexOf "price")) =
      (pricesOf df).map numCell := by
  rw [prows1Of]
  refine setColumn_map_getCell_self _ _ _ ?_ ?_
  · rw [List.length_map, pricesOf_length,
      setColumn_length _ _ _ (by rw [symsOf_length, prowsOf_length]), prowsOf_length]
  · intro r hr
    rw [setColumn_row_length _ _ _ _ (prowsOf_row_length df hwf hdate) r hr]
    exact List.indexOf_lt_length.2 hps

lemma step_lengths (df : Table) :
    (step1Of df).2.length = (alignGrid (survDates df)).length ∧
    (step2Of df).2.length = (alignGrid (survDates df)).length ∧
    (step3Of df).2.length = (alignGrid (survDates df)).length := by
  have h1 : (step1Of df).2.length = (prows1Of df).length := by
    rw [step1Of]
    exact addOrSetCol_snd_length _ _ _ _ (by rw [List.length_map, pct_length, pricesOf_length, prows1Of_length])
  have h1G : (step1Of df).2.length = (alignGrid (survDates df)).length := by
    rw [h1, prows1Of_length]
  have h2 : (step2Of df).2.length = (step1Of df).2.length := by
    rw [step2Of]
    exact addOrSetCol_snd_length _ _ _ _ (by rw [List.length_map, pct_length, pricesOf_length, h1G])
  have h2G : (step2Of df).2.length = (alignGrid (survDates df)).length := by rw [h2, h1G]
  have h3 : (step3Of df).2.length = (step2Of df).2.length := by
    rw [step3Of]
    exact addOrSetCol_snd_length _ _ _ _ (by rw [List.length_map, pct_length, pricesOf_length, h2G])
  exact ⟨h1G, h2G, by rw [h3, h2G]⟩

lemma step_row_lengths (df : Table) (hwf : df.WF) (hdate : "date" ∈ df.cols) :
    (∀ r ∈ (step1Of df).2, r.length = (step1Of df).1.length) ∧
    (∀ r ∈ (step2Of df).2, r.length = (step2Of df).1.length) ∧
    (∀ r ∈ (step3Of df).2, r.length = (step3Of df).1.length) := by
  have h1 : ∀ r ∈ (step1Of df).2, r.length = (step1Of df).1.length := by
    rw [step1Of]
    exact addOrSetCol_row_length _ _ _ _ (prows1Of_row_length df hwf hdate)
  have h2 : ∀ r ∈ (step2Of df).2, r.length = (step2Of df).1.length := by
    rw [step2Of]
    exact addOrSetCol_row_length _ _ _ _ h1
  have h3 : ∀ r ∈ (step3Of df).2, r.length = (step3Of df).1.length := by
    rw [step3Of]
    exact addOrSetCol_row_length _ _ _ _ h2
  exact ⟨h1, h2, h3⟩

lemma step_mem (df : Table) (c : String) (hc : c ∈ pcolsOf df) :
    c ∈ (step1Of df).1 ∧ c ∈ (step2Of df).1 ∧ c ∈ (step3Of df).1 := by
  have h1 : c ∈ (step1Of df).1 := addOrSetCol_mem_fst _ _ _ _ c hc
  have h2 : c ∈ (step2Of df).1 := addOrSetCol_mem_fst _ _ _ _ c h1
  exact ⟨h1, h2, addOrSetCol_mem_fst _ _ _ _ c h2⟩

lemma addOrSetCol_name_mem (cols : List String) (rows : List (List Cell)) (name : String)
    (vals : List Cell) : name ∈ (addOrSetCol cols rows name vals).1 := by
  rw [addOrSetCol]
  split_ifs with hc
  · exact (contains_iff_mem cols name).1 hc
  · exact List.mem_append_right _ (by simp)

lemma step3_track (df : Table) (hwf : df.WF) (hdate : "date" ∈ df.cols)
    (other : String) (hother : other ∈ pcolsOf df)
    (hne1 : other ≠ "Daily_Change_%") (hne2 : other ≠ "Weekly_Change_7d_%")
    (hne3 : other ≠ "Monthly_Change_30d_%") :
    (step3Of df).2.map (fun r => getCell r ((step3Of df).1.indexOf other)) =
      (prows1Of df).map (fun r => getCell r ((pcolsOf df).indexOf other)) := by
  have hG := prows1Of_length df
  have hsl := step_lengths df
  have hsr := step_row_lengths df hwf hdate
  have hm := step_mem df other hother
  have t3 : (step3Of df).2.map (fun r => getCell r ((step3Of df).1.indexOf other)) =
      (step2Of df).2.map (fun r => getCell r ((step2Of df).1.indexOf other)) := by
    rw [step3Of]
    exact addOrSetCol_track _ _ _ _ other hm.2.1 hne3
      (by rw [List.length_map, pct_length, pricesOf_length, hsl.2.1]) hsr.2.1
  have t2 : (step2Of df).2.map (fun r => getCell r ((step2Of df).1.indexOf other)) =
      (step1Of df).2.map (fun r => getCell r ((step1Of df).1.indexOf other)) := by
    rw [step2Of]
    exact addOrSetCol_track _ _ _ _ other hm.1 hne2
      (by rw [List.length_map, pct_length, pricesOf_length, hsl.1]) hsr.1
  have t1 : (step1Of df).2.map (fun r => getCell r ((step1Of df).1.indexOf other)) =
      (prows1Of df).map (fun r => getCell r ((pcolsOf df).indexOf other)) := by
    rw [step1Of]
    exact addOrSetCol_track _ _ _ _ other hother hne1
      (by rw [List.length_map, pct_length, pricesOf_length, hG]) (prows1Of_row_length df hwf hdate)
  rw [t3, t2, t1]

/-! ### buildProcessed characterization -/

lemma buildProcessed_cols (df : Table) :
    (buildProcessed df).cols = "date" :: (step3Of df).1 := rfl

lemma buildProcessed_dateColumn (df : Table) :
    dateColumn (buildProcessed df) = alignGrid (survDates df) := by
  have hlen : (step3Of df).2.length = (alignGrid (survDates df)).length := (step_lengths df).2.2
  rw [dateColumn, getColVals, buildProcessed]
  simp only [List.indexOf_cons_self]
  rw [zipWith_cons_map_getCell_zero _ _ hlen]
  rw [List.map_map]
  exact List.map_id'' (fun t => rfl) _

lemma getColVals_buildProcessed_ne (df : Table) (name : String) (hne : "date" ≠ name) :
    getColVals (buildProcessed df) name =
      (step3Of df).2.map (fun r => getCell r ((step3Of df).1.indexOf name)) := by
  have hlen : (step3Of df).2.length = (alignGrid (survDates df)).length := (step_lengths df).2.2
  rw [getColVals, buildProcessed]
  simp only [List.indexOf_cons_ne _ hne]
  exact zipWith_cons_map_getCell_succ _ _ _ hlen

lemma buildProcessed_price (df : Table) (hwf : df.WF) (hdate : "date" ∈ df.cols)
    (hps : "price" ∈ pcolsOf df) :
    getColVals (buildProcessed df) "price" = (pricesOf df).map numCell := by
  rw [getColVals_buildProcessed_ne df "price" (by decide)]
  rw [step3_track df hwf hdate "price" hps (by decide) (by decide) (by decide)]
  exact prows1Of_price df hwf hdate hps

lemma buildProcessed_daily (df : Table) (hwf : df.WF) (hdate : "date" ∈ df.cols) :
    getColVals (buildProcessed df) "Daily_Change_%" = (pct 1 (pricesOf df)).map numCell := by
  rw [getColVals_buildProcessed_ne df "Daily_Change_%" (by decide)]
  have hsl := step_lengths df
  have hsr := step_row_lengths df hwf hdate
  have hm1 : "Daily_Change_%" ∈ (step1Of df).1 := by
    rw [step1Of]; exact addOrSetCol_name_mem _ _ _ _
  have hm2 : "Daily_Change_%" ∈ (step2Of df).1 := addOrSetCol_mem_fst _ _ _ _ _ hm1
  have t3 : (step3Of df).2.map (fun r => getCell r ((step3Of df).1.indexOf "Daily_Change_%")) =
      (step2Of df).2.map (fun r => getCell r ((step2Of df).1.indexOf "Daily_Change_%")) := by
    rw [step3Of]
    exact addOrSetCol_track _ _ _ _ _ hm2 (by decide)
      (by rw [List.length_map, pct_length, pricesOf_length, hsl.2.1]) hsr.2.1
  have t2 : (step2Of df).2.map (fun r => getCell r ((step2Of df).1.indexOf "Daily_Change_%")) =
      (step1Of df).2.map (fun r => getCell r ((step1Of df).1.indexOf "Daily_Change_%")) := by
    rw [step2Of]
    exact addOrSetCol_track _ _ _ _ _ hm1 (by decide)
      (by rw [List.length_map, pct_length, pricesOf_length, hsl.1]) hsr.1
  have t1 : (step1Of df).2.map (fun r => getCell r ((step1Of df).1.indexOf "Daily_Change_%")) =
      (pct 1 (pricesOf df)).map numCell := by
    rw [step1Of]
    exact addOrSetCol_self _ _ _ _
      (by rw [List.length_map, pct_length, pricesOf_length, prows1Of_length])
      (prows1Of_row_length df hwf hdate)
  rw [t3, t2, t1]

lemma buildProcessed_weekly (df : Table) (hwf : df.WF) (hdate : "date" ∈ df.cols) :
    getColVals (buildProcessed df) "Weekly_Change_7d_%" = (pct 7 (pricesOf df)).map numCell := by
  rw [getColVals_buildProcessed_ne df "Weekly_Change_7d_%" (by decide)]
  have hsl := step_lengths df
  have hsr := step_row_lengths df hwf hdate
  have hm2 : "Weekly_Change_7d_%" ∈ (step2Of df).1 := by
    rw [step2Of]; exact addOrSetCol_name_mem _ _ _ _
  have t3 : (step3Of df).2.map (fun r => getCell r ((step3Of df).1.indexOf "Weekly_Change_7d_%")) =
      (step2Of df).2.map (fun r => getCell r ((step2Of df).1.indexOf "Weekly_Change_7d_%")) := by
    rw [step3Of]
    exact addOrSetCol_track _ _ _ _ _ hm2 (by decide)
      (by rw [List.length_map, pct_length, pricesOf_length, hsl.2.1]) hsr.2.1
  have t2 : (step2Of df).2.map (fun r => getCell r ((step2Of df).1.indexOf "Weekly_Change_7d_%")) =
      (pct 7 (pricesOf df)).map numCell := by
    rw [step2Of]
    exact addOrSetCol_self _ _ _ _
      (by rw [List.length_map, pct_length, pricesOf_length, hsl.1]) hsr.1
  rw [t3, t2]

lemma buildProcessed_monthly (df : Table) (hwf : df.WF) (hdate : "date" ∈ df.cols) :
    getColVals (buildProcessed df) "Monthly_Change_30d_%" = (pct 30 (pricesOf df)).map numCell := by
  rw [getColVals_buildProcessed_ne df "Monthly_Change_30d_%" (by decide)]
  have hsl := step_lengths df
  have hsr := step_row_lengths df hwf hdate
  have t3 : (step3Of df).2.map (fun r => getCell r ((step3Of df).1.indexOf "Monthly_Change_30d_%")) =
      (pct 30 (pricesOf df)).map numCell := by
    rw [step3Of]
    exact addOrSetCol_self _ _ _ _
      (by rw [List.length_map, pct_length, pricesOf_length, hsl.2.1]) hsr.2.1
  rw [t3]

lemma validate_mem_of_missing_nil (df : Table) (fp : String)
    (hm : missingCols (validate_and_fix_columns df fp) = []) :
    "date" ∈ (validate_and_fix_columns df fp).cols ∧
    "symbol" ∈ (validate_and_fix_columns df fp).cols ∧
    "price" ∈ (validate_and_fix_columns df fp).cols :=
  (missingCols_eq_nil_iff _).1 hm

lemma price_mem_pcolsOf (df : Table) (hdate : "date" ∈ df.cols) (hprice : "price" ∈ df.cols) :
    "price" ∈ pcolsOf df := by
  have hd : dIdx df < df.cols.length := List.indexOf_lt_length.2 hdate
  refine mem_eraseIdx_of_get_ne df.cols (dIdx df) hd "price" hprice ?_
  have hg : df.cols.get ⟨dIdx df, hd⟩ = "date" := List.indexOf_get hd
  rw [hg]
  decide

lemma symbol_mem_pcolsOf (df : Table) (hdate : "date" ∈ df.cols) (hsym : "symbol" ∈ df.cols) :
    "symbol" ∈ pcolsOf df := by
  have hd : dIdx df < df.cols.length := List.indexOf_lt_length.2 hdate
  refine mem_eraseIdx_of_get_ne df.cols (dIdx df) hd "symbol" hsym ?_
  have hg : df.cols.get ⟨dIdx df, hd⟩ = "date" := List.indexOf_get hd
  rw [hg]
  decide

/-! ### Remaining support lemmas -/

lemma toNumOpt_numCell (o : Option ℚ) : toNumOpt (numCell o) = o := by
  cases o <;> rfl

lemma range_map_getD (n t : ℕ) (f : ℕ → Option ℚ) :
    ((List.range n).map f).getD t none = if t < n then f t else none := by
  rw [List.getD_eq_getElem?_getD, List.getElem?_map]
  by_cases ht : t < n
  · rw [List.getElem?_range ht]
    simp [ht]
  · rw [List.getElem?_eq_none (by simpa using Nat.not_lt.1 ht)]
    simp [ht]

lemma pct_getD_lt (lag : ℕ) (p : List (Option ℚ)) (t : ℕ) (ht : t < lag) :
    (pct lag p).getD t none = none := by
  rw [pct, range_map_getD]
  split_ifs with h
  · simp [ht]
  · rfl

lemma pct_getD_formula (lag : ℕ) (p : List (Option ℚ)) (t : ℕ) (hl : lag ≤ t)
    (ht : t < p.length) :
    (pct lag p).getD t none = pctFormula p t lag := by
  rw [pct, range_map_getD, if_pos ht, if_neg (Nat.not_lt.2 hl), pctFormula]
  cases p.getD t none <;> cases p.getD (t - lag) none <;> rfl

lemma survDates_ne_nil (df : Table) (hne : survSorted df ≠ []) : survDates df ≠ [] := by
  rw [survDates]
  intro hc
  exact hne (List.map_eq_nil_iff.1 hc)

lemma alignGrid_eq (ds : List Int) (hne : ds ≠ []) :
    alignGrid ds = gridList (ds.headD 0) (ds.getLastD 0) := by
  cases ds with
  | nil => exact absurd rfl hne
  | cons d rest =>
    rw [alignGrid]
    cases rest with
    | nil => rfl
    | cons e es =>
      have : (d :: e :: es).getLastD d = (d :: e :: es).getLastD 0 :=
        getLastD_cons_eq d (e :: es) d 0
      rw [this]
      rfl

lemma addOrSetCol_fst_of_not_mem (cols : List String) (rows : List (List Cell))
    (name : String) (vals : List Cell) (hnm : name ∉ cols) :
    (addOrSetCol cols rows name vals).1 = cols ++ [name] := by
  rw [addOrSetCol, if_neg (fun hc => hnm ((contains_iff_mem cols name).1 hc))]

lemma addOrSetCol_fst_of_mem (cols : List String) (rows : List (List Cell))
    (name : String) (vals : List Cell) (hm : name ∈ cols) :
    (addOrSetCol cols rows name vals).1 = cols := by
  rw [addOrSetCol, if_pos ((contains_iff_mem cols name).2 hm)]

lemma map_replace_eq_set (l : List String) (c t : String) (hnd : l.Nodup) (hc : c ∈ l) :
    l.map (fun x => if x = c then t else x) = l.set (l.indexOf c) t := by
  induction l with
  | nil => cases hc
  | cons a as ih =>
    rcases List.mem_cons.1 hc with rfl | hcs
    · have htl : as.map (fun x => if x = c then t else x) = as := by
        have h2 : ∀ x ∈ as, (if x = c then t else x) = x := by
          intro x hx
          rcases eq_or_ne x c with rfl | hne2
          · exact absurd hx (List.nodup_cons.1 hnd).1
          · exact if_neg hne2
        calc as.map (fun x => if x = c then t else x) = as.map (fun x => x) :=
              List.map_congr_left h2
          _ = as := List.map_id' as
      simp [htl, List.indexOf_cons_self]
    · have hne : a ≠ c := fun he => (List.nodup_cons.1 hnd).1 (he ▸ hcs)
      simp only [List.map_cons, if_neg hne, List.indexOf_cons_ne _ hne]
      rw [List.set_cons_succ]
      exact congrArg _ (ih (List.nodup_cons.1 hnd).2 hcs)

lemma survSorted_eq_nil_of_null_price (t : Table) (hdp : dIdx t ≠ pIdx t)
    (hall : ∀ r ∈ t.rows, isNullCell (getCell r (pIdx t)) = true) :
    survSorted t = [] := by
  rw [survSorted]
  have hfil : (t.rows.map (fun r => r.set (dIdx t) (convDate (getCell r (dIdx t))))).filter
      (fun r => !(isNullCell (getCell r (dIdx t))) && !(isNullCell (getCell r (pIdx t)))) = [] := by
    rw [List.filter_eq_nil_iff]
    intro r hr
    obtain ⟨r0, hr0, rfl⟩ := List.mem_map.1 hr
    rw [getCell_set_ne r0 (dIdx t) (pIdx t) _ hdp]
    rw [hall r0 hr0]
    simp
  rw [hfil]
  rfl

lemma countP_isSome_eq_length (l : List (Option ℚ)) (h : ∀ y ∈ l, y.isSome) :
    l.countP Option.isSome = l.length :=
  List.countP_eq_length.2 h

/-! ### Claim theorems -/

/-- C10: after `validate_and_fix_columns` runs, a `symbol` column is always
present (inferred from the file name when absent), so the
missing-required-column failure in `process_file` can only be triggered by
a missing `date` or `price` column, never by a missing `symbol`. -/
theorem C10_theorem : ∀ (df : Table) (fp : String),
    "symbol" ∈ (validate_and_fix_columns df fp).cols ∧
    "symbol" ∉ missingCols (validate_and_fix_columns df fp) := by
  intro df fp
  have hmem : "symbol" ∈ (validate_and_fix_columns df fp).cols := by
    rw [validate_and_fix_columns]
    split_ifs with hc
    · exact (contains_iff_mem _ _).1 hc
    · exact List.mem_append_right _ (by simp)
  refine ⟨hmem, ?_⟩
  rw [missingCols]
  simp only [List.mem_filter]
  rintro ⟨-, hcond⟩
  exact (of_decide_eq_true hcond) ((contains_iff_mem _ _).2 hmem)

/-- C7: for every row of a forecast output produced from a successfully
fitted model (any per-step mean, any nonnegative standard errors),
`ci_lower ≤ forecast ≤ ci_upper`. -/
theorem C7_theorem (sym : String) (df : Table) (fmean fse : ℕ → ℚ) (l : List FRow)
    (hse : ∀ i, 0 ≤ fse i)
    (h : forecast_one_symbol sym df fmean fse = Except.ok (some l)) :
    ∀ r ∈ l, r.ci_lower ≤ r.forecast ∧ r.forecast ≤ r.ci_upper := by
  rw [forecast_one_symbol] at h
  cases hp : prepare_series df with
  | error e => rw [hp] at h; cases h
  | ok o =>
    cases o with
    | none => rw [hp] at h; cases h
    | some s =>
      rw [hp] at h
      simp only at h
      cases h
      intro r hr
      rw [fcRows] at hr
      simp only [List.mem_map, List.mem_range] at hr
      obtain ⟨i, -, rfl⟩ := hr
      have hz : 0 ≤ zCrit * fse i := mul_nonneg (by norm_num [zCrit]) (hse i)
      constructor
      · simp only
        linarith
      · simp only
        linarith

/-- C7 witness: the theorem applied to a concrete 20-day series with mean 0
and standard error 0, at the first forecast row. -/
theorem C7_witness :
    ((fcRows "X" (lastAligned tblTwenty) (fun _ => 0) (fun _ => 0)).headD
        ⟨0, "", 0, 0, 0⟩).ci_lower ≤
      ((fcRows "X" (lastAligned tblTwenty) (fun _ => 0) (fun _ => 0)).headD
        ⟨0, "", 0, 0, 0⟩).forecast ∧
    ((fcRows "X" (lastAligned tblTwenty) (fun _ => 0) (fun _ => 0)).headD
        ⟨0, "", 0, 0, 0⟩).forecast ≤
      ((fcRows "X" (lastAligned tblTwenty) (fun _ => 0) (fun _ => 0)).headD
        ⟨0, "", 0, 0, 0⟩).ci_upper := by
  have hcons : fcRows "X" (lastAligned tblTwenty) (fun _ => 0) (fun _ => 0) =
      (fcRows "X" (lastAligned tblTwenty) (fun _ => 0) (fun _ => 0)).headD ⟨0, "", 0, 0, 0⟩ ::
        (fcRows "X" (lastAligned tblTwenty) (fun _ => 0) (fun _ => 0)).tail := by rfl
  exact C7_theorem "X" tblTwenty (fun _ => 0) (fun _ => 0) _ (fun i => le_refl 0) rfl _
    (hcons ▸ List.mem_cons_self _ _)

/-- C4: in every processed output, the daily/weekly/monthly change columns
are null for the first 1/7/30 entries respectively, and every other entry
at position t equals the null-propagating formula
`(price[t] - price[t-lag]) / price[t-lag] * 100` for lag 1, 7, 30. -/
theorem C4_theorem (df : Table) (fp : String) (out : Table) (hwf : df.WF)
    (h : process_file fp (some df) = Except.ok (some out)) :
    ((∀ t < 1, (colQ out "Daily_Change_%").getD t none = none) ∧
     (∀ t, 1 ≤ t → t < (colQ out "price").length →
       (colQ out "Daily_Change_%").getD t none = pctFormula (colQ out "price") t 1)) ∧
    ((∀ t < 7, (colQ out "Weekly_Change_7d_%").getD t none = none) ∧
     (∀ t, 7 ≤ t → t < (colQ out "price").length →
       (colQ out "Weekly_Change_7d_%").getD t none = pctFormula (colQ out "price") t 7)) ∧
    ((∀ t < 30, (colQ out "Monthly_Change_30d_%").getD t none = none) ∧
     (∀ t, 30 ≤ t → t < (colQ out "price").length →
       (colQ out "Monthly_Change_30d_%").getD t none = pctFormula (colQ out "price") t 30)) := by
  obtain ⟨hbo, hm, hne, hnd⟩ := process_file_ok_some h
  obtain ⟨hvd, hvs, hvp⟩ := validate_mem_of_missing_nil df fp hm
  have hwfv := validate_WF df fp hwf
  have hpm := price_mem_pcolsOf _ hvd hvp
  have hprice : colQ out "price" = pricesOf (validate_and_fix_columns df fp) := by
    rw [hbo, colQ, buildProcessed_price _ hwfv hvd hpm, List.map_map]
    exact List.map_id'' toNumOpt_numCell _
  have hdaily : colQ out "Daily_Change_%" =
      pct 1 (pricesOf (validate_and_fix_columns df fp)) := by
    rw [hbo, colQ, buildProcessed_daily _ hwfv hvd, List.map_map]
    exact List.map_id'' toNumOpt_numCell _
  have hweek : colQ out "Weekly_Change_7d_%" =
      pct 7 (pricesOf (validate_and_fix_columns df fp)) := by
    rw [hbo, colQ, buildProcessed_weekly _ hwfv hvd, List.map_map]
    exact List.map_id'' toNumOpt_numCell _
  have hmon : colQ out "Monthly_Change_30d_%" =
      pct 30 (pricesOf (validate_and_fix_columns df fp)) := by
    rw [hbo, colQ, buildProcessed_monthly _ hwfv hvd, List.map_map]
    exact List.map_id'' toNumOpt_numCell _
  refine ⟨⟨?_, ?_⟩, ⟨?_, ?_⟩, ⟨?_, ?_⟩⟩
  · intro t ht; rw [hdaily]; exact pct_getD_lt 1 _ t ht
  · intro t ht hlen
    rw [hdaily, hprice]
    exact pct_getD_formula 1 _ t ht (by rw [hprice] at hlen; exact hlen)
  · intro t ht; rw [hweek]; exact pct_getD_lt 7 _ t ht
  · intro t ht hlen
    rw [hweek, hprice]
    exact pct_getD_formula 7 _ t ht (by rw [hprice] at hlen; exact hlen)
  · intro t ht; rw [hmon]; exact pct_getD_lt 30 _ t ht
  · intro t ht hlen
    rw [hmon, hprice]
    exact pct_getD_formula 30 _ t ht (by rw [hprice] at hlen; exact hlen)

/-- C4 witness: the theorem applied to a concrete three-day table, giving
a null first daily change and the formula value at position 1. -/
theorem C4_witness :
    (colQ (buildProcessed (validate_and_fix_columns tblThree "AAPL.csv"))
      "Daily_Change_%").getD 0 none = none ∧
    (colQ (buildProcessed (validate_and_fix_columns tblThree "AAPL.csv"))
      "Daily_Change_%").getD 1 none =
      pctFormula (colQ (buildProcessed (validate_and_fix_columns tblThree "AAPL.csv"))
        "price") 1 1 := by
  have h : process_file "AAPL.csv" (some tblThree) =
      Except.ok (some (buildProcessed (validate_and_fix_columns tblThree "AAPL.csv"))) := by
    rfl
  have hwf : tblThree.WF := by
    intro r hr
    fin_cases hr <;> rfl
  have hc := C4_theorem tblThree "AAPL.csv" _ hwf h
  exact ⟨hc.1.1 0 (by decide), hc.1.2 1 (by decide) (by decide)⟩

/-- C5: every input series with at least one aligned-grid entry whose
price coerces to a number yields a processed output with no null price;
and an input whose price values are all null is rejected with the
failure value. -/
theorem C5_theorem :
    (∀ (df : Table) (fp : String) (out : Table), df.WF →
      process_file fp (some df) = Except.ok (some out) →
      (∃ o ∈ prePrices (validate_and_fix_columns df fp), o.isSome) →
      ∀ c ∈ getColVals out "price", isNullCell c = false) ∧
    (∀ (df : Table) (fp : String),
      (∀ r ∈ (validate_and_fix_columns df fp).rows,
        isNullCell (getCell r (pIdx (validate_and_fix_columns df fp))) = true) →
      process_file fp (some df) = Except.ok none) := by
  constructor
  · intro df fp out hwf h hex
    obtain ⟨hbo, hm, hne, hnd⟩ := process_file_ok_some h
    obtain ⟨hvd, hvs, hvp⟩ := validate_mem_of_missing_nil df fp hm
    have hwfv := validate_WF df fp hwf
    have hpm := price_mem_pcolsOf _ hvd hvp
    intro c hc
    rw [hbo, buildProcessed_price _ hwfv hvd hpm] at hc
    obtain ⟨o, ho, rfl⟩ := List.mem_map.1 hc
    have hall := bfill_ffill_all_some (prePrices (validate_and_fix_columns df fp)) hex
    have hos : o.isSome := by
      rw [pricesOf] at ho
      exact hall o ho
    obtain ⟨q, rfl⟩ := Option.isSome_iff_exists.1 hos
    rfl
  · intro df fp hall
    simp only [process_file]
    split_ifs with h1 h2 h3 h4 <;>
      first
        | rfl
        | (exfalso
           have hm : missingCols (validate_and_fix_columns df fp) = [] := not_ne_iff.1 h2
           obtain ⟨hvd, hvs, hvp⟩ := validate_mem_of_missing_nil df fp hm
           have hdp : dIdx (validate_and_fix_columns df fp) ≠
               pIdx (validate_and_fix_columns df fp) := by
             rw [dIdx, pIdx]
             exact indexOf_ne_of_ne _ "date" "price" hvd hvp (by decide)
           exact h3 (survSorted_eq_nil_of_null_price _ hdp hall))

/-- C5 witness: the theorem applied to a concrete three-day table (first
output price is non-null) and to a concrete all-null-price table
(rejected with the skip value). -/
theorem C5_witness :
    isNullCell ((getColVals (buildProcessed (validate_and_fix_columns tblThree "AAPL.csv"))
      "price").headD Cell.cnull) = false ∧
    process_file "a.csv" (some tblNull) = Except.ok none := by
  have h : process_file "AAPL.csv" (some tblThree) =
      Except.ok (some (buildProcessed (validate_and_fix_columns tblThree "AAPL.csv"))) := rfl
  have hwf : tblThree.WF := by
    intro r hr
    fin_cases hr <;> rfl
  have h5 := C5_theorem.1 tblThree "AAPL.csv" _ hwf h (by decide)
  have hcons : getColVals (buildProcessed (validate_and_fix_columns tblThree "AAPL.csv"))
      "price" =
      (getColVals (buildProcessed (validate_and_fix_columns tblThree "AAPL.csv"))
        "price").headD Cell.cnull ::
      (getColVals (buildProcessed (validate_and_fix_columns tblThree "AAPL.csv"))
        "price").tail := by rfl
  exact ⟨h5 _ (hcons ▸ List.mem_cons_self _ _), C5_theorem.2 tblNull "a.csv" (by decide)⟩

/-- C3 (amended): the output dates are a strictly increasing,
duplicate-free one-day-step progression starting at the minimum surviving
date and ending at the last step not exceeding the maximum surviving
date; when the surviving span is a whole number of days the set is
exactly the inclusive one-day calendar range from minimum to maximum. -/
theorem C3_theorem (df : Table) (fp : String) (out : Table)
    (h : process_file fp (some df) = Except.ok (some out)) :
    (dateColumn out).Chain' (fun a b => b = a + 24) ∧
    (dateColumn out).Pairwise (fun a b => a < b) ∧
    (dateColumn out).headD 0 = (survDates (validate_and_fix_columns df fp)).headD 0 ∧
    (dateColumn out).getLastD 0 ≤ (survDates (validate_and_fix_columns df fp)).getLastD 0 ∧
    (survDates (validate_and_fix_columns df fp)).getLastD 0 - 24 < (dateColumn out).getLastD 0 ∧
    (∀ d ∈ survDates (validate_and_fix_columns df fp),
      (survDates (validate_and_fix_columns df fp)).headD 0 ≤ d ∧
      d ≤ (survDates (validate_and_fix_columns df fp)).getLastD 0) ∧
    ((24 : Int) ∣ (survDates (validate_and_fix_columns df fp)).getLastD 0 -
        (survDates (validate_and_fix_columns df fp)).headD 0 →
      ∀ x : Int, x ∈ dateColumn out ↔
        (survDates (validate_and_fix_columns df fp)).headD 0 ≤ x ∧
        x ≤ (survDates (validate_and_fix_columns df fp)).getLastD 0 ∧
        (24 : Int) ∣ x - (survDates (validate_and_fix_columns df fp)).headD 0) := by
  obtain ⟨hbo, hm, hne, hnd⟩ := process_file_ok_some h
  have hdc : dateColumn out = alignGrid (survDates (validate_and_fix_columns df fp)) := by
    rw [hbo]
    exact buildProcessed_dateColumn _
  have hsne : survDates (validate_and_fix_columns df fp) ≠ [] := survDates_ne_nil _ hne
  have hsorted := survDates_sorted (validate_and_fix_columns df fp)
  have hag : alignGrid (survDates (validate_and_fix_columns df fp)) =
      gridList ((survDates (validate_and_fix_columns df fp)).headD 0)
        ((survDates (validate_and_fix_columns df fp)).getLastD 0) := alignGrid_eq _ hsne
  have hlo_mem : (survDates (validate_and_fix_columns df fp)).headD 0 ∈
      survDates (validate_and_fix_columns df fp) := by
    cases hds : survDates (validate_and_fix_columns df fp) with
    | nil => exact absurd hds hsne
    | cons d rest => simp
  have hlohi : (survDates (validate_and_fix_columns df fp)).headD 0 ≤
      (survDates (validate_and_fix_columns df fp)).getLastD 0 :=
    le_getLastD_of_sorted _ hsorted _ hlo_mem
  have hlast := gridList_last_le ((survDates (validate_and_fix_columns df fp)).headD 0)
    ((survDates (validate_and_fix_columns df fp)).getLastD 0) hlohi
  refine ⟨?_, ?_, ?_, ?_, ?_, ?_, ?_⟩
  · rw [hdc, hag]; exact gridList_chain' _ _
  · rw [hdc, hag]; exact gridList_pairwise _ _
  · rw [hdc, hag]; exact gridList_headD _ _
  · rw [hdc, hag]; exact hlast.1
  · rw [hdc, hag]; exact hlast.2
  · intro d hd
    exact ⟨headD_le_of_sorted _ hsorted d hd, le_getLastD_of_sorted _ hsorted d hd⟩
  · intro h24 x
    rw [hdc, hag]
    exact gridList_mem_iff_of_dvd _ _ hlohi h24 x

/-- C3 witness: the theorem applied to a concrete three-day table. -/
theorem C3_witness :
    (dateColumn (buildProcessed (validate_and_fix_columns tblThree "AAPL.csv"))).headD 0 =
      (survDates (validate_and_fix_columns tblThree "AAPL.csv")).headD 0 ∧
    (dateColumn (buildProcessed (validate_and_fix_columns tblThree "AAPL.csv"))).Chain'
      (fun a b => b = a + 24) := by
  have h : process_file "AAPL.csv" (some tblThree) =
      Except.ok (some (buildProcessed (validate_and_fix_columns tblThree "AAPL.csv"))) := rfl
  have hc := C3_theorem tblThree "AAPL.csv" _ h
  exact ⟨hc.2.2.1, hc.1⟩

/-- C2 (amended): with duplicate-free surviving dates and the required
columns present, a symbol is skipped iff fewer than 20 non-null price
observations remain after calendar alignment AND gap filling; whenever
some aligned-grid entry has a numeric price, that count equals the
number of calendar grid days in the span, so gap-filled days count
toward the threshold. -/
theorem C2_theorem (sym : String) (df : Table) (fmean fse : ℕ → ℚ)
    (hdate : "date" ∈ df.cols) (hprice : "price" ∈ df.cols)
    (hnd : (survDates df).Nodup) :
    (alignedCount df < 20 → forecast_one_symbol sym df fmean fse = Except.ok none) ∧
    (20 ≤ alignedCount df → forecast_one_symbol sym df fmean fse ≠ Except.ok none) ∧
    ((∃ o ∈ preAligned df, o.isSome) →
      alignedCount df = (alignGrid (survDates df)).length) := by
  refine ⟨?_, ?_, ?_⟩
  · intro hlt
    have hp : prepare_series df = Except.ok none := by
      rw [prepare_series, if_neg (fun hc => hc ⟨hdate, hprice⟩), if_pos hnd, if_pos hlt]
    rw [forecast_one_symbol, hp]
  · intro h20 hcontra
    have hp : prepare_series df =
        Except.ok (some ((alignGrid (survDates df)).zip (alignedPrices df))) := by
      rw [prepare_series, if_neg (fun hc => hc ⟨hdate, hprice⟩), if_pos hnd,
        if_neg (Nat.not_lt.2 h20)]
    rw [forecast_one_symbol, hp] at hcontra
    cases hcontra
  · intro hex
    rw [alignedCount,
      countP_isSome_eq_length _ (by
        rw [alignedPrices]
        exact bfill_ffill_all_some _ hex),
      alignedPrices_length]

/-- C2 witness: the theorem applied to ten consecutive days (skipped) and
to ten rows spanning 28 days (28 aligned observations). -/
theorem C2_witness :
    forecast_one_symbol "Y" tblTenDays (fun _ => 0) (fun _ => 0) = Except.ok none ∧
    alignedCount tblTen = (alignGrid (survDates tblTen)).length := by
  have h1 := C2_theorem "Y" tblTenDays (fun _ => 0) (fun _ => 0)
    (by decide) (by decide) (by decide)
  have h2 := C2_theorem "X" tblTen (fun _ => 0) (fun _ => 0)
    (by decide) (by decide) (by decide)
  exact ⟨h1.1 (by decide), h2.2.2 (by decide)⟩

lemma fcRows_length (sym : String) (lastD : Int) (fmean fse : ℕ → ℚ) :
    (fcRows sym lastD fmean fse).length = FORECAST_STEPS := by
  simp [fcRows]

lemma fcRows_dates (sym : String) (lastD : Int) (fmean fse : ℕ → ℚ) :
    (fcRows sym lastD fmean fse).map FRow.date =
      (List.range FORECAST_STEPS).map (fun i => lastD + 24 * (Int.ofNat i + 1)) := by
  rw [fcRows, List.map_map]
  rfl

lemma fcRows_dates_chain (sym : String) (lastD : Int) (fmean fse : ℕ → ℚ) :
    ((fcRows sym lastD fmean fse).map FRow.date).Chain' (fun a b => b = a + 24) := by
  rw [fcRows_dates]
  have h30 : FORECAST_STEPS = 29 + 1 := rfl
  rw [h30, List.chain'_map, List.chain'_range_succ]
  intro m _
  simp only [Int.ofNat_eq_coe]
  push_cast
  ring

lemma fcRows_dates_head (sym : String) (lastD : Int) (fmean fse : ℕ → ℚ) :
    ((fcRows sym lastD fmean fse).map FRow.date).headD 0 = lastD + 24 := by
  have h : ((fcRows sym lastD fmean fse).map FRow.date).headD 0 =
      lastD + 24 * (Int.ofNat 0 + 1) := rfl
  rw [h]
  simp

/-- C6: every symbol with at least 20 aligned price observations produces
exactly 30 forecast rows, daily-contiguous, starting one calendar day
after the last historical date of the aligned series; a symbol with
fewer than 20 produces the skip value (zero rows). -/
theorem C6_theorem (sym : String) (df : Table) (fmean fse : ℕ → ℚ)
    (hdate : "date" ∈ df.cols) (hprice : "price" ∈ df.cols)
    (hnd : (survDates df).Nodup) :
    (20 ≤ alignedCount df →
      forecast_one_symbol sym df fmean fse =
        Except.ok (some (fcRows sym (lastAligned df) fmean fse)) ∧
      (fcRows sym (lastAligned df) fmean fse).length = 30 ∧
      ((fcRows sym (lastAligned df) fmean fse).map FRow.date).Chain' (fun a b => b = a + 24) ∧
      ((fcRows sym (lastAligned df) fmean fse).map FRow.date).headD 0 = lastAligned df + 24) ∧
    (alignedCount df < 20 → forecast_one_symbol sym df fmean fse = Except.ok none) := by
  constructor
  · intro h20
    have hp : prepare_series df =
        Except.ok (some ((alignGrid (survDates df)).zip (alignedPrices df))) := by
      rw [prepare_series, if_neg (fun hc => hc ⟨hdate, hprice⟩), if_pos hnd,
        if_neg (Nat.not_lt.2 h20)]
    have hfst : ((alignGrid (survDates df)).zip (alignedPrices df)).map Prod.fst =
        alignGrid (survDates df) :=
      List.map_fst_zip _ _ (le_of_eq (alignedPrices_length df).symm)
    refine ⟨?_, fcRows_length sym _ fmean fse, fcRows_dates_chain sym _ fmean fse,
      fcRows_dates_head sym _ fmean fse⟩
    rw [forecast_one_symbol, hp]
    simp only [hfst]
    rfl
  · intro hlt
    have hp : prepare_series df = Except.ok none := by
      rw [prepare_series, if_neg (fun hc => hc ⟨hdate, hprice⟩), if_pos hnd, if_pos hlt]
    rw [forecast_one_symbol, hp]

/-- C6 witness: the theorem applied to twenty consecutive days (30 rows,
contiguous, starting one day after the last historical date) and to ten
consecutive days (skip). -/
theorem C6_witness :
    forecast_one_symbol "X" tblTwenty (fun _ => 0) (fun _ => 0) =
      Except.ok (some (fcRows "X" (lastAligned tblTwenty) (fun _ => 0) (fun _ => 0))) ∧
    (fcRows "X" (lastAligned tblTwenty) (fun _ => 0) (fun _ => 0)).length = 30 ∧
    ((fcRows "X" (lastAligned tblTwenty) (fun _ => 0) (fun _ => 0)).map FRow.date).headD 0 =
      lastAligned tblTwenty + 24 ∧
    forecast_one_symbol "Y" tblTenDays (fun _ => 0) (fun _ => 0) = Except.ok none := by
  have h1 := C6_theorem "X" tblTwenty (fun _ => 0) (fun _ => 0)
    (by decide) (by decide) (by decide)
  have h2 := C6_theorem "Y" tblTenDays (fun _ => 0) (fun _ => 0)
    (by decide) (by decide) (by decide)
  obtain ⟨ha, hb, hc, hd⟩ := h1.1 (by decide)
  exact ⟨ha, hb, hd, h2.2 (by decide)⟩

/-- C8: column normalization matches date candidates {date, datetime} and
price candidates {price, close, adj close} case-insensitively, renames
the first match to the canonical name only if no column already bears the
canonical name; a raw table with `Datetime` and `Close` columns
normalizes successfully to the canonical schema. -/
theorem C8_theorem (cols : List String) (c : String) (cs : List String) :
    (dateCand "Datetime" = true ∧ dateCand "DATE" = true ∧ priceCand "Close" = true ∧
      priceCand "Adj Close" = true ∧ dateCand "close" = false) ∧
    ("date" ∈ cols → renameFirstIfAbsent cols dateCand "date" = cols) ∧
    ("price" ∈ cols → renameFirstIfAbsent cols priceCand "price" = cols) ∧
    (cols.filter dateCand = c :: cs → "date" ∉ cols →
      renameFirstIfAbsent cols dateCand "date" =
        cols.map (fun x => if x = c then "date" else x)) ∧
    (cols.filter dateCand = c :: cs → "date" ∉ cols → cols.Nodup →
      renameFirstIfAbsent cols dateCand "date" = cols.set (cols.indexOf c) "date") ∧
    (cols.filter priceCand = c :: cs → "price" ∉ cols →
      renameFirstIfAbsent cols priceCand "price" =
        cols.map (fun x => if x = c then "price" else x)) ∧
    (validate_and_fix_columns ⟨["Datetime", "Close"], [[Cell.ctime 0, Cell.cnum 1]]⟩
        "AAPL.csv" =
      ⟨["date", "price", "symbol"], [[Cell.ctime 0, Cell.cnum 1, Cell.cstr "AAPL"]]⟩ ∧
     missingCols (validate_and_fix_columns ⟨["Datetime", "Close"],
        [[Cell.ctime 0, Cell.cnum 1]]⟩ "AAPL.csv") = []) := by
  refine ⟨by decide, ?_, ?_, ?_, ?_, ?_, by decide⟩
  · intro hmem
    cases hf : cols.filter dateCand with
    | nil => simp only [renameFirstIfAbsent, hf]
    | cons c0 cs0 =>
      simp only [renameFirstIfAbsent, hf]
      rw [if_pos ((contains_iff_mem _ _).2 hmem)]
  · intro hmem
    cases hf : cols.filter priceCand with
    | nil => simp only [renameFirstIfAbsent, hf]
    | cons c0 cs0 =>
      simp only [renameFirstIfAbsent, hf]
      rw [if_pos ((contains_iff_mem _ _).2 hmem)]
  · intro hf hnm
    simp only [renameFirstIfAbsent, hf]
    rw [if_neg (fun hc => hnm ((contains_iff_mem _ _).1 hc))]
  · intro hf hnm hnd
    have hcm : c ∈ cols :=
      List.mem_of_mem_filter (hf.symm ▸ List.mem_cons_self c cs)
    simp only [renameFirstIfAbsent, hf]
    rw [if_neg (fun hc => hnm ((contains_iff_mem _ _).1 hc))]
    exact map_replace_eq_set cols c "date" hnd hcm
  · intro hf hnm
    simp only [renameFirstIfAbsent, hf]
    rw [if_neg (fun hc => hnm ((contains_iff_mem _ _).1 hc))]

/-- C8 witness: the theorem applied to concrete aliased column lists. -/
theorem C8_witness :
    renameFirstIfAbsent ["Datetime", "Close"] dateCand "date" = ["date", "Close"] ∧
    renameFirstIfAbsent ["date", "Close"] priceCand "price" = ["date", "price"] := by
  have h0 := C8_theorem ["Datetime", "Close"] "Datetime" []
  have h0b := C8_theorem ["date", "Close"] "Close" []
  have h1 := h0.2.2.2.1 (by decide) (by decide)
  have h2 := h0b.2.2.2.2.2.1 (by decide) (by decide)
  constructor
  · rw [h1]; decide
  · rw [h2]; decide

/-- C9 (amended): the processed output keeps `date` first, then the
remaining input columns in their original order (symbol appended at the
end when it was absent), then the three change columns appended last
when not already present (already-present change columns are overwritten
in place); additional raw columns are retained, so the canonical
six-column layout is obtained in particular when the normalized input
columns are exactly date, symbol, price — and also when they are
already the canonical six — but not in general. -/
theorem C9_theorem (df : Table) (fp : String) (out : Table)
    (h : process_file fp (some df) = Except.ok (some out)) :
    "date" ∈ out.cols ∧ "symbol" ∈ out.cols ∧ "price" ∈ out.cols ∧
    (("Daily_Change_%" ∉ pcolsOf (validate_and_fix_columns df fp) ∧
      "Weekly_Change_7d_%" ∉ pcolsOf (validate_and_fix_columns df fp) ∧
      "Monthly_Change_30d_%" ∉ pcolsOf (validate_and_fix_columns df fp)) →
      out.cols = "date" :: pcolsOf (validate_and_fix_columns df fp) ++
        ["Daily_Change_%", "Weekly_Change_7d_%", "Monthly_Change_30d_%"]) ∧
    ((validate_and_fix_columns df fp).cols = ["date", "symbol", "price"] →
      out.cols = ["date", "symbol", "price", "Daily_Change_%", "Weekly_Change_7d_%",
        "Monthly_Change_30d_%"]) ∧
    ((validate_and_fix_columns df fp).cols = ["date", "symbol", "price", "Daily_Change_%",
        "Weekly_Change_7d_%", "Monthly_Change_30d_%"] →
      out.cols = ["date", "symbol", "price", "Daily_Change_%", "Weekly_Change_7d_%",
        "Monthly_Change_30d_%"]) := by
  obtain ⟨hbo, hm, hne, hnd⟩ := process_file_ok_some h
  obtain ⟨hvd, hvs, hvp⟩ := validate_mem_of_missing_nil df fp hm
  have hsm : "symbol" ∈ pcolsOf (validate_and_fix_columns df fp) :=
    symbol_mem_pcolsOf _ hvd hvs
  have hpm : "price" ∈ pcolsOf (validate_and_fix_columns df fp) :=
    price_mem_pcolsOf _ hvd hvp
  have hcols : out.cols = "date" :: (step3Of (validate_and_fix_columns df fp)).1 := by
    rw [hbo]
    rfl
  have hgen : ("Daily_Change_%" ∉ pcolsOf (validate_and_fix_columns df fp) ∧
      "Weekly_Change_7d_%" ∉ pcolsOf (validate_and_fix_columns df fp) ∧
      "Monthly_Change_30d_%" ∉ pcolsOf (validate_and_fix_columns df fp)) →
      out.cols = "date" :: pcolsOf (validate_and_fix_columns df fp) ++
        ["Daily_Change_%", "Weekly_Change_7d_%", "Monthly_Change_30d_%"] := by
    rintro ⟨hn1, hn2, hn3⟩
    have e1 : (step1Of (validate_and_fix_columns df fp)).1 =
        pcolsOf (validate_and_fix_columns df fp) ++ ["Daily_Change_%"] := by
      rw [step1Of]
      exact addOrSetCol_fst_of_not_mem _ _ _ _ hn1
    have hw2 : "Weekly_Change_7d_%" ∉ (step1Of (validate_and_fix_columns df fp)).1 := by
      rw [e1]
      intro hc
      rcases List.mem_append.1 hc with hcc | hcc
      · exact hn2 hcc
      · revert hcc
        decide
    have e2 : (step2Of (validate_and_fix_columns df fp)).1 =
        (pcolsOf (validate_and_fix_columns df fp) ++ ["Daily_Change_%"]) ++
          ["Weekly_Change_7d_%"] := by
      rw [step2Of, addOrSetCol_fst_of_not_mem _ _ _ _ hw2, e1]
    have hw3 : "Monthly_Change_30d_%" ∉ (step2Of (validate_and_fix_columns df fp)).1 := by
      rw [e2]
      intro hc
      rcases List.mem_append.1 hc with hcc | hcc
      · rcases List.mem_append.1 hcc with hcd | hcd
        · exact hn3 hcd
        · revert hcd
          decide
      · revert hcc
        decide
    have e3 : (step3Of (validate_and_fix_columns df fp)).1 =
        ((pcolsOf (validate_and_fix_columns df fp) ++ ["Daily_Change_%"]) ++
          ["Weekly_Change_7d_%"]) ++ ["Monthly_Change_30d_%"] := by
      rw [step3Of, addOrSetCol_fst_of_not_mem _ _ _ _ hw3, e2]
    rw [hcols, e3]
    simp [List.append_assoc]
  refine ⟨?_, ?_, ?_, hgen, ?_, ?_⟩
  · rw [hcols]
    simp
  · rw [hcols]
    exact List.mem_cons_of_mem _ (step_mem _ "symbol" hsm).2.2
  · rw [hcols]
    exact List.mem_cons_of_mem _ (step_mem _ "price" hpm).2.2
  · intro hceq
    have hpc : pcolsOf (validate_and_fix_columns df fp) = ["symbol", "price"] := by
      rw [pcolsOf, dIdx, hceq]
      rfl
    rw [hgen (by rw [hpc]; exact ⟨by decide, by decide, by decide⟩), hpc]
    rfl
  · intro hceq
    have hpc : pcolsOf (validate_and_fix_columns df fp) =
        ["symbol", "price", "Daily_Change_%", "Weekly_Change_7d_%", "Monthly_Change_30d_%"] := by
      rw [pcolsOf, dIdx, hceq]
      rfl
    have e1 : (step1Of (validate_and_fix_columns df fp)).1 =
        pcolsOf (validate_and_fix_columns df fp) := by
      rw [step1Of]
      exact addOrSetCol_fst_of_mem _ _ _ _ (by rw [hpc]; decide)
    have e2 : (step2Of (validate_and_fix_columns df fp)).1 =
        pcolsOf (validate_and_fix_columns df fp) := by
      rw [step2Of, e1]
      exact addOrSetCol_fst_of_mem _ _ _ _ (by rw [hpc]; decide)
    have e3 : (step3Of (validate_and_fix_columns df fp)).1 =
        pcolsOf (validate_and_fix_columns df fp) := by
      rw [step3Of, e2]
      exact addOrSetCol_fst_of_mem _ _ _ _ (by rw [hpc]; decide)
    rw [hcols, e3, hpc]

/-- C9 witness: the theorem applied to a table already in canonical
three-column order (change columns appended) and to a table already
carrying the canonical six (change columns overwritten in place), both
producing exactly the canonical six columns. -/
theorem C9_witness :
    (buildProcessed (validate_and_fix_columns tblCanon "c.csv")).cols =
      ["date", "symbol", "price", "Daily_Change_%", "Weekly_Change_7d_%",
        "Monthly_Change_30d_%"] ∧
    (buildProcessed (validate_and_fix_columns tblSix "s.csv")).cols =
      ["date", "symbol", "price", "Daily_Change_%", "Weekly_Change_7d_%",
        "Monthly_Change_30d_%"] := by
  have h1 : process_file "c.csv" (some tblCanon) =
      Except.ok (some (buildProcessed (validate_and_fix_columns tblCanon "c.csv"))) := rfl
  have h2 : process_file "s.csv" (some tblSix) =
      Except.ok (some (buildProcessed (validate_and_fix_columns tblSix "s.csv"))) := rfl
  have hc1 := C9_theorem tblCanon "c.csv" _ h1
  have hc2 := C9_theorem tblSix "s.csv" _ h2
  exact ⟨hc1.2.2.2.2.1 (by decide), hc2.2.2.2.2.2 (by decide)⟩

/-- C1 (amended): an unreadable file, a file with missing required
columns, and a file with no usable rows each make process_file return the
skip value, and a batch whose units never raise completes with one result
per file; the containment does not extend to every exception (see the
counterexample: duplicate dates raise out of the batch). -/
theorem C1_theorem :
    (∀ fp, process_file fp none = Except.ok none) ∧
    (∀ fp df, missingCols (validate_and_fix_columns df fp) ≠ [] →
      process_file fp (some df) = Except.ok none) ∧
    (∀ fp df, survSorted (validate_and_fix_columns df fp) = [] →
      process_file fp (some df) = Except.ok none) ∧
    (∀ batch : List (String × Option Table),
      (∀ x ∈ batch, process_file x.1 x.2 ≠ Except.error ()) →
      ∃ rs, main batch = Except.ok rs ∧ rs.length = batch.length) := by
  refine ⟨fun fp => rfl, ?_, ?_, ?_⟩
  · intro fp df hm
    simp only [process_file]
    split_ifs with h1 h2 h3 h4 <;> first | rfl | exact absurd hm h2
  · intro fp df hsv
    simp only [process_file]
    split_ifs with h1 h2 h3 h4 <;> first | rfl | exact absurd hsv h3
  · intro batch
    induction batch with
    | nil => exact fun _ => ⟨[], rfl, rfl⟩
    | cons x xs ih =>
      intro hno
      cases hpf : process_file x.1 x.2 with
      | error e =>
        exfalso
        cases e
        exact hno x (List.mem_cons_self x xs) hpf
      | ok r =>
        obtain ⟨rs, hrs, hlen⟩ := ih (fun y hy => hno y (List.mem_cons_of_mem x hy))
        refine ⟨r :: rs, ?_, by simp [hlen]⟩
        rw [main, hpf, hrs]

/-- C1 witness: the theorem applied to an unreadable file, a file missing
its required columns, and a singleton batch. -/
theorem C1_witness :
    process_file "a.csv" none = Except.ok none ∧
    process_file "nodate.csv" (some ⟨["x"], [[Cell.cnum 1]]⟩) = Except.ok none ∧
    ∃ rs, main [("a.csv", (none : Option Table))] = Except.ok rs ∧ rs.length = 1 := by
  refine ⟨C1_theorem.1 "a.csv", C1_theorem.2.1 "nodate.csv" _ (by decide),
    C1_theorem.2.2.2 _ ?_⟩
  intro x hx
  fin_cases hx
  decide

end MacroPulse
